import Mathlib

/-!
Verification of the statement-assembly engine of the `scape-labs/query` Go
library (hardened variant of `query.go`, the one defining `escapeIdentifier`,
`escapeSimpleIdentifier`, `isValidIdentifier` and `safeIdentifier`).

The embedding is shallow: every Go function of the core is translated into an
executable Lean definition over `String` / `List Char`.  Go strings are
modelled as Lean strings; the case mapping used by the sanitizers is the ASCII
one (all strings handled by the library's denylists are ASCII).  Go's
`regexp.ReplaceAllString` with a fixed-string alternation and Go's
`strings.ReplaceAll` both perform a single left-to-right non-overlapping scan
of the input, which is modelled by the fuel-indexed scanners below (Go's
non-POSIX regexps use leftmost-first semantics, so at a given position the
first alternative of the pattern that matches is the one removed; the fuel is
the length of the input, which bounds the number of steps the scan can take).
-/

namespace SpecQuery

/-- ASCII lower-casing of a character (the denylists and all identifier
keywords are ASCII, so this models Go's `strings.ToLower` on the inputs the
sanitizers compare against).  Spelled as an explicit table so that every
case is immediate. -/
def lowerChar (c : Char) : Char :=
  match c with
  | 'A' => 'a' | 'B' => 'b' | 'C' => 'c' | 'D' => 'd' | 'E' => 'e' | 'F' => 'f'
  | 'G' => 'g' | 'H' => 'h' | 'I' => 'i' | 'J' => 'j' | 'K' => 'k' | 'L' => 'l'
  | 'M' => 'm' | 'N' => 'n' | 'O' => 'o' | 'P' => 'p' | 'Q' => 'q' | 'R' => 'r'
  | 'S' => 's' | 'T' => 't' | 'U' => 'u' | 'V' => 'v' | 'W' => 'w' | 'X' => 'x'
  | 'Y' => 'y' | 'Z' => 'z' | c => c

/-- ASCII lower-casing of a string. -/
def lowerStr (s : String) : String := ⟨s.data.map lowerChar⟩

/-- Go `strings.Contains s sub`: `sub` occurs as a contiguous substring of
`s`. -/
def goContains (s sub : String) : Bool := decide (sub.data <:+: s.data)

/-- The fixed keyword denylist of `escapeIdentifier` /
`escapeSimpleIdentifier`, in the order the Go code lists it (the order
matters: the regexp alternation prefers earlier alternatives, so `exec` is
always matched in preference to `execute`). -/
def sqlKeywords : List String :=
  ["drop", "delete", "insert", "update", "create", "alter", "truncate",
   "exec", "execute"]

/-- Does the (lower-case ASCII) pattern `pat` match at the head of `l`,
case-insensitively? -/
def matchesCI (pat l : List Char) : Bool :=
  (l.take pat.length).map lowerChar == pat

/-- The first keyword of the denylist matching at the head of `l`
(case-insensitively), together with its length.  This models one matching
attempt of the Go regexp `(?i)(drop|delete|...|execute)` at a fixed position:
leftmost-first semantics try the alternatives in order. -/
def firstKW (l : List Char) : Option Nat :=
  (sqlKeywords.map String.data).findSome?
    (fun kw => if matchesCI kw l then some kw.length else none)

/-- One left-to-right scan deleting every (leftmost-first, non-overlapping)
case-insensitive occurrence of a denylisted keyword.  `fuel` bounds the
number of characters consumed; starting it at the input length makes the
definition total and structurally recursive. -/
def stripKWAux : Nat → List Char → List Char
  | 0, _ => []
  | _ + 1, [] => []
  | fuel + 1, c :: cs =>
    match firstKW (c :: cs) with
    | some k => stripKWAux fuel (cs.drop (k - 1))
    | none => c :: stripKWAux fuel cs

/-- The single-pass keyword deletion on a character list. -/
def stripKW (l : List Char) : List Char := stripKWAux l.length l

/-- Go `escapeIdentifier`: `regexp.MustCompile("(?i)(drop|delete|insert|update|create|alter|truncate|exec|execute)").ReplaceAllString(identifier, "")`. -/
def escapeIdentifier (s : String) : String := ⟨stripKW s.data⟩

/-- The character class kept by `escapeSimpleIdentifier`'s regexp
`[^a-zA-Z0-9_.*]` (everything outside the class is deleted). -/
def allowedChar (c : Char) : Bool :=
  c.isAlphanum || c == '_' || c == '.' || c == '*'

/-- Go `strings.ReplaceAll s pat ""`: delete every (left-to-right,
non-overlapping) case-sensitive occurrence of `pat`. -/
def removePatAux (pat : List Char) : Nat → List Char → List Char
  | 0, _ => []
  | _ + 1, [] => []
  | fuel + 1, c :: cs =>
    if pat.isPrefixOf (c :: cs) then removePatAux pat fuel (cs.drop (pat.length - 1))
    else c :: removePatAux pat fuel cs

/-- `strings.ReplaceAll s pat ""` on strings. -/
def goRemoveAll (s pat : String) : String := ⟨removePatAux pat.data s.data.length s.data⟩

/-- Is `c` ASCII whitespace (the cases of Go's `unicode.IsSpace` that can
occur here)? -/
def isWs (c : Char) : Bool := c == ' ' || c == '\t' || c == '\n' || c == '\r'

/-- Go `strings.TrimSpace` (ASCII whitespace). -/
def trimSpace (s : String) : String :=
  ⟨((s.data.dropWhile isWs).reverse.dropWhile isWs).reverse⟩

/-- Go `escapeSimpleIdentifier`: keep only `[a-zA-Z0-9_.*]`, then for each
keyword of the denylist, if the lower-cased (and trimmed) cleaned string
contains it, delete its case-SENSITIVE occurrences from the cleaned string.
(The lower-cased copy is computed once, before the loop, exactly as in the Go
code.) -/
def escapeSimpleIdentifier (s : String) : String :=
  let cleaned : String := ⟨s.data.filter allowedChar⟩
  let lower := lowerStr (trimSpace cleaned)
  sqlKeywords.foldl
    (fun acc kw => if goContains lower kw then goRemoveAll acc kw else acc)
    cleaned

/-- The broader denylist of `isValidIdentifier`, in source order. -/
def dangerousPatterns : List String :=
  ["';", "\";", "--", "/*", "*/", "drop", "delete", "insert",
   "update", "create", "alter", "truncate", "exec", "execute",
   "union", "select", "into", "from", "where", "join"]

/-- Go `isValidIdentifier`: non-empty and (lower-cased) containing none of
the dangerous patterns. -/
def isValidIdentifier (s : String) : Bool :=
  if s == "" then false
  else dangerousPatterns.all (fun p => !(goContains (lowerStr s) p))

/-- Doubling of the internal double quotes
(`strings.ReplaceAll escaped "\"" "\"\""`; the pattern is a single character,
so the general scan specialises to this structural map). -/
def dblQ : List Char → List Char
  | [] => []
  | c :: cs => if c = '"' then '"' :: '"' :: dblQ cs else c :: dblQ cs

/-- Go `safeIdentifier`: pass a classifier-safe, quote-free identifier
through unchanged; otherwise run the (permissive) `escapeIdentifier`, double
the internal double quotes and wrap in double quotes. -/
def safeIdentifier (s : String) : String :=
  if isValidIdentifier s && !s.data.contains '"' && !s.data.contains '\'' then s
  else "\"" ++ (⟨dblQ (escapeIdentifier s).data⟩ : String) ++ "\""

/-! ### Data model of the builder -/

/-- Go `ParameterStyle`. -/
inductive ParameterStyle where
  | QuestionMark
  | DollarNumber
deriving DecidableEq

/-- Go `QueryType`. -/
inductive QueryType where
  | SelectQuery
  | InsertQuery
  | UpdateQuery
  | DeleteQuery
deriving DecidableEq

/-- Opaque parameter values (`interface\x7b\x7d` in Go): never rendered into
the statement text, only collected into the parameter list. -/
inductive Val where
  | int (n : Int)
  | str (s : String)
  | bool (b : Bool)
deriving DecidableEq

/-- Go `WhereClause`. -/
structure WhereClause where
  column : String
  operator : String
  value : Val
  joinType : String
deriving DecidableEq

/-- Go `JoinClause` (`jtype` is the Go field `Type`). -/
structure JoinClause where
  jtype : String
  table : String
  alias' : String
  condition : String
deriving DecidableEq

/-- Go `QueryBuilder`. -/
structure QueryBuilder where
  queryType : QueryType
  table : String
  tableAlias : String
  columns : List String
  whereClauses : List WhereClause
  joinClauses : List JoinClause
  order : String
  limit : Int
  offset : Int
  paramStyle : ParameterStyle
  insertColumns : List String
  insertValues : List Val
  updateColumns : List String
  updateValues : List Val
deriving DecidableEq

/-- Go `NewQueryBuilder` (zero values for the fields the constructor does not
set explicitly). -/
def NewQueryBuilder : QueryBuilder :=
  { queryType := .SelectQuery
    table := ""
    tableAlias := ""
    columns := ["*"]
    whereClauses := []
    joinClauses := []
    order := ""
    limit := 0
    offset := 0
    paramStyle := .DollarNumber
    insertColumns := []
    insertValues := []
    updateColumns := []
    updateValues := [] }

namespace QueryBuilder

def ParameterPlaceholder (b : QueryBuilder) (style : ParameterStyle) : QueryBuilder :=
  { b with paramStyle := style }

def Table (b : QueryBuilder) (table : String) : QueryBuilder :=
  { b with table := table }

/-- Go `Select(columns ...string)`: the variadic argument is a list; an empty
call leaves the previous columns in place. -/
def Select (b : QueryBuilder) (columns : List String) : QueryBuilder :=
  { b with queryType := .SelectQuery
           columns := if columns.length > 0 then columns else b.columns }

/-- Go `Insert(data map[string]interface\x7b\x7d)`.  A Go map has no defined
iteration order; the argument is the key/value sequence in whatever order the
iteration produced. -/
def Insert (b : QueryBuilder) (data : List (String × Val)) : QueryBuilder :=
  { b with queryType := .InsertQuery
           insertColumns := data.map Prod.fst
           insertValues := data.map Prod.snd }

def InsertColumns (b : QueryBuilder) (columns : List String) : QueryBuilder :=
  { b with queryType := .InsertQuery, insertColumns := columns }

def Values (b : QueryBuilder) (values : List Val) : QueryBuilder :=
  { b with insertValues := values }

/-- Go `Update(data map[string]interface\x7b\x7d)` (same map-order remark as
`Insert`). -/
def Update (b : QueryBuilder) (data : List (String × Val)) : QueryBuilder :=
  { b with queryType := .UpdateQuery
           updateColumns := data.map Prod.fst
           updateValues := data.map Prod.snd }

def Set (b : QueryBuilder) (column : String) (value : Val) : QueryBuilder :=
  { b with queryType := .UpdateQuery
           updateColumns := b.updateColumns ++ [column]
           updateValues := b.updateValues ++ [value] }

def Delete (b : QueryBuilder) : QueryBuilder :=
  { b with queryType := .DeleteQuery }

def Where (b : QueryBuilder) (column operator : String) (value : Val) : QueryBuilder :=
  { b with whereClauses :=
      b.whereClauses ++ [⟨column, operator, value, "and"⟩] }

def OrWhere (b : QueryBuilder) (column operator : String) (value : Val) : QueryBuilder :=
  { b with whereClauses :=
      b.whereClauses ++ [⟨column, operator, value, "or"⟩] }

def OrderBy (b : QueryBuilder) (order : String) : QueryBuilder :=
  { b with order := order }

def Limit (b : QueryBuilder) (limit : Int) : QueryBuilder :=
  { b with limit := limit }

def Offset (b : QueryBuilder) (offset : Int) : QueryBuilder :=
  { b with offset := offset }

def Join (b : QueryBuilder) (table condition : String) : QueryBuilder :=
  { b with joinClauses := b.joinClauses ++ [⟨"JOIN", table, "", condition⟩] }

def LeftJoin (b : QueryBuilder) (table condition : String) : QueryBuilder :=
  { b with joinClauses := b.joinClauses ++ [⟨"LEFT JOIN", table, "", condition⟩] }

def RightJoin (b : QueryBuilder) (table condition : String) : QueryBuilder :=
  { b with joinClauses := b.joinClauses ++ [⟨"RIGHT JOIN", table, "", condition⟩] }

def InnerJoin (b : QueryBuilder) (table condition : String) : QueryBuilder :=
  { b with joinClauses := b.joinClauses ++ [⟨"INNER JOIN", table, "", condition⟩] }

def FullJoin (b : QueryBuilder) (table condition : String) : QueryBuilder :=
  { b with joinClauses := b.joinClauses ++ [⟨"FULL JOIN", table, "", condition⟩] }

def JoinAs (b : QueryBuilder) (table alias' condition : String) : QueryBuilder :=
  { b with joinClauses := b.joinClauses ++ [⟨"JOIN", table, alias', condition⟩] }

def LeftJoinAs (b : QueryBuilder) (table alias' condition : String) : QueryBuilder :=
  { b with joinClauses := b.joinClauses ++ [⟨"LEFT JOIN", table, alias', condition⟩] }

def RightJoinAs (b : QueryBuilder) (table alias' condition : String) : QueryBuilder :=
  { b with joinClauses := b.joinClauses ++ [⟨"RIGHT JOIN", table, alias', condition⟩] }

def InnerJoinAs (b : QueryBuilder) (table alias' condition : String) : QueryBuilder :=
  { b with joinClauses := b.joinClauses ++ [⟨"INNER JOIN", table, alias', condition⟩] }

def FullJoinAs (b : QueryBuilder) (table alias' condition : String) : QueryBuilder :=
  { b with joinClauses := b.joinClauses ++ [⟨"FULL JOIN", table, alias', condition⟩] }

def As (b : QueryBuilder) (alias' : String) : QueryBuilder :=
  { b with tableAlias := alias' }

end QueryBuilder

/-! ### Rendering -/

/-- Decimal digit character (`'0' + n` for `n < 10`). -/
def digitChar (n : Nat) : Char := Char.ofNat (48 + n)

/-- Decimal digits of a natural number, most significant first.  Fuel-indexed
to stay structurally recursive; `natRepr` supplies enough fuel. -/
def natDigitsAux : Nat → Nat → List Char
  | 0, _ => []
  | fuel + 1, n =>
    if n < 10 then [digitChar n]
    else natDigitsAux fuel (n / 10) ++ [digitChar (n % 10)]

/-- Decimal digits of `n`. -/
def natDigits (n : Nat) : List Char := natDigitsAux (n + 1) n

/-- Decimal rendering of a natural number (Go `fmt.Sprintf("%d", n)` for a
non-negative value, the only case the renderers reach). -/
def natRepr (n : Nat) : String := ⟨natDigits n⟩

/-- Go `Query`. -/
structure Query where
  SQL : String
  Params : List Val
deriving DecidableEq

/-- Go `(q Query) Sql()`. -/
def Query.Sql (q : Query) : String := q.SQL

namespace QueryBuilder

/-- Go `getPlaceholder` (the `default` branch of the Go switch also renders
`$n`; `ParameterStyle` has exactly the two listed values). -/
def getPlaceholder (style : ParameterStyle) (index : Nat) : String :=
  match style with
  | .QuestionMark => "?"
  | .DollarNumber => "$" ++ natRepr index

/-- Go `strings.Join xs sep`. -/
def goJoin (sep : String) : List String → String
  | [] => ""
  | [x] => x
  | x :: xs => x ++ sep ++ goJoin sep xs

/-- The loop body of `buildWhereClause`: renders the clauses from a running
parameter ordinal, returning the fragment, the collected values and the final
ordinal.  `first` tells whether the separator (` and ` / ` or `) is omitted
(Go's `i > 0` test). -/
def whereLoop (style : ParameterStyle) :
    List WhereClause → Nat → Bool → String × List Val × Nat
  | [], n, _ => ("", [], n)
  | w :: ws, n, first =>
    let sep := if first then "" else " " ++ w.joinType ++ " "
    let frag := sep ++ safeIdentifier w.column ++ " " ++
      escapeIdentifier w.operator ++ " " ++ getPlaceholder style (n + 1)
    let rest := whereLoop style ws (n + 1) false
    (frag ++ rest.1, w.value :: rest.2.1, rest.2.2)

/-- Go `buildWhereClause`: writes `" where "` once, then the loop. -/
def buildWhereClause (b : QueryBuilder) (paramCount : Nat) :
    String × List Val × Nat :=
  let r := whereLoop b.paramStyle b.whereClauses paramCount true
  (" where " ++ r.1, r.2.1, r.2.2)

/-- The JOIN loop of `buildSelect`: one fragment per declared join, in
order. -/
def joinsText : List JoinClause → String
  | [] => ""
  | j :: js =>
    " " ++ j.jtype ++ " " ++ safeIdentifier j.table ++
      (if j.alias' != "" then " as " ++ safeIdentifier j.alias' else "") ++
      " on " ++ escapeIdentifier j.condition ++ joinsText js

/-- The `ORDER BY` / `LIMIT` / `OFFSET` tail shared by the renderers
(`buildUpdate` and `buildDelete` never emit `OFFSET`; they pass
`withOffset := false`). -/
def tailText (b : QueryBuilder) (withOffset : Bool) : String :=
  (if b.order != "" then " order by " ++ safeIdentifier b.order else "") ++
  (if b.limit > 0 then " limit " ++ natRepr b.limit.toNat else "") ++
  (if withOffset && b.offset > 0 then " offset " ++ natRepr b.offset.toNat else "")

/-- The conditional WHERE fragment of the renderers: Go appends `whereSQL`
and `whereParams` only when at least one WHERE clause was declared. -/
def whereOpt (b : QueryBuilder) (paramCount : Nat) : String × List Val :=
  if b.whereClauses.length > 0 then
    ((b.buildWhereClause paramCount).1, (b.buildWhereClause paramCount).2.1)
  else ("", [])

/-- The `SELECT <columns> FROM <table>[ as <alias>][<joins>]` prefix of
`buildSelect`. -/
def selectBase (b : QueryBuilder) : String :=
  "select " ++ goJoin ", " (b.columns.map safeIdentifier) ++
  " from " ++ safeIdentifier b.table ++
  (if b.tableAlias != "" then " as " ++ safeIdentifier b.tableAlias else "") ++
  joinsText b.joinClauses

/-- Go `buildSelect`. -/
def buildSelect (b : QueryBuilder) : Query :=
  { SQL := selectBase b ++ (whereOpt b 0).1 ++ tailText b true
    Params := (whereOpt b 0).2 }

/-- The placeholder list of `buildInsert`: `placeholders[i] =
getPlaceholder(i+1)` for `i` ranging over the insert values. -/
def phPieces (style : ParameterStyle) (k : Nat) : Nat → List String
  | 0 => []
  | m + 1 => getPlaceholder style (k + 1) :: phPieces style (k + 1) m

/-- Go `buildInsert`. -/
def buildInsert (b : QueryBuilder) : Query :=
  if b.insertColumns.length > 0 then
    { SQL := "insert into " ++ safeIdentifier b.table ++ " (" ++
        goJoin ", " (b.insertColumns.map safeIdentifier) ++
        ") values (" ++
        goJoin ", " (phPieces b.paramStyle 0 b.insertValues.length) ++ ")"
      Params := b.insertValues }
  else
    { SQL := "insert into " ++ safeIdentifier b.table, Params := [] }

/-- The SET pieces of `buildUpdate`: the `i`-th column uses placeholder
`k + i + 1` (Go's incremented `paramCount`). -/
def setPieces (style : ParameterStyle) : List String → Nat → List String
  | [], _ => []
  | c :: cs, k =>
    (safeIdentifier c ++ " = " ++ getPlaceholder style (k + 1)) ::
      setPieces style cs (k + 1)

/-- The `UPDATE <table> SET <assignments>` prefix of `buildUpdate`. -/
def updateBase (b : QueryBuilder) : String :=
  "update " ++ safeIdentifier b.table ++ " set " ++
  goJoin ", " (setPieces b.paramStyle b.updateColumns 0)

/-- Go `buildUpdate` (after the SET loop, `paramCount` equals the number of
update columns; the WHERE composer continues from it). -/
def buildUpdate (b : QueryBuilder) : Query :=
  { SQL := updateBase b ++ (whereOpt b b.updateColumns.length).1 ++ tailText b false
    Params := b.updateValues ++ (whereOpt b b.updateColumns.length).2 }

/-- Go `buildDelete`. -/
def buildDelete (b : QueryBuilder) : Query :=
  { SQL := "delete from " ++ safeIdentifier b.table
      ++ (whereOpt b 0).1 ++ tailText b false
    Params := (whereOpt b 0).2 }

/-- Go `Build`: dispatch on the statement kind. -/
def Build (b : QueryBuilder) : Query :=
  match b.queryType with
  | .SelectQuery => b.buildSelect
  | .InsertQuery => b.buildInsert
  | .UpdateQuery => b.buildUpdate
  | .DeleteQuery => b.buildDelete

end QueryBuilder

/-! ### Declaration sequences

A deep embedding of the public declaration surface: one constructor per
declaration method, so that "every sequence of declaration calls on a fresh
builder" can be quantified over. -/

/-- The five join kinds (each available with and without an alias). -/
inductive JoinKind where
  | plain | left | right | inner | full
deriving DecidableEq

/-- One declaration call of the fluent API. -/
inductive Decl where
  | table (t : String)
  | tableAs (a : String)
  | selectCols (cs : List String)
  | insertMap (data : List (String × Val))
  | insertCols (cs : List String)
  | values (vs : List Val)
  | updateMap (data : List (String × Val))
  | setCol (c : String) (v : Val)
  | deleteQ
  | whereAnd (c op : String) (v : Val)
  | whereOr (c op : String) (v : Val)
  | orderBy (o : String)
  | limitD (n : Int)
  | offsetD (n : Int)
  | paramStyleD (st : ParameterStyle)
  | joinD (k : JoinKind) (t cond : String)
  | joinAsD (k : JoinKind) (t a cond : String)
deriving DecidableEq

/-- Apply one declaration call (dispatching to the builder methods above). -/
def applyDecl (b : QueryBuilder) : Decl → QueryBuilder
  | .table t => b.Table t
  | .tableAs a => b.As a
  | .selectCols cs => b.Select cs
  | .insertMap data => b.Insert data
  | .insertCols cs => b.InsertColumns cs
  | .values vs => b.Values vs
  | .updateMap data => b.Update data
  | .setCol c v => b.Set c v
  | .deleteQ => b.Delete
  | .whereAnd c op v => b.Where c op v
  | .whereOr c op v => b.OrWhere c op v
  | .orderBy o => b.OrderBy o
  | .limitD n => b.Limit n
  | .offsetD n => b.Offset n
  | .paramStyleD st => b.ParameterPlaceholder st
  | .joinD k t cond =>
    match k with
    | .plain => b.Join t cond
    | .left => b.LeftJoin t cond
    | .right => b.RightJoin t cond
    | .inner => b.InnerJoin t cond
    | .full => b.FullJoin t cond
  | .joinAsD k t a cond =>
    match k with
    | .plain => b.JoinAs t a cond
    | .left => b.LeftJoinAs t a cond
    | .right => b.RightJoinAs t a cond
    | .inner => b.InnerJoinAs t a cond
    | .full => b.FullJoinAs t a cond

/-- Apply a whole sequence of declaration calls to the fresh builder. -/
def applyDecls (ds : List Decl) : QueryBuilder :=
  ds.foldl applyDecl NewQueryBuilder

/-- A string that cannot be mistaken for (part of) a placeholder token: it
contains neither `$` nor `?`. -/
def strClean (s : String) : Bool :=
  !s.data.contains '$' && !s.data.contains '?'

/-- All user-supplied strings of a declaration call are placeholder-clean
(parameter values are opaque and never rendered, so they are unrestricted). -/
def declClean : Decl → Bool
  | .table t => strClean t
  | .tableAs a => strClean a
  | .selectCols cs => cs.all strClean
  | .insertMap data => data.all (fun p => strClean p.1)
  | .insertCols cs => cs.all strClean
  | .values _ => true
  | .updateMap data => data.all (fun p => strClean p.1)
  | .setCol c _ => strClean c
  | .deleteQ => true
  | .whereAnd c op _ => strClean c && strClean op
  | .whereOr c op _ => strClean c && strClean op
  | .orderBy o => strClean o
  | .limitD _ => true
  | .offsetD _ => true
  | .paramStyleD _ => true
  | .joinD _ t cond => strClean t && strClean cond
  | .joinAsD _ t a cond => strClean t && strClean a && strClean cond

/-- Every declaration of the sequence is placeholder-clean. -/
def declsClean (ds : List Decl) : Bool := ds.all declClean

/-- Placeholder-cleanliness of one accumulated WHERE clause. -/
def wcClean (w : WhereClause) : Bool :=
  strClean w.column && strClean w.operator && strClean w.joinType

/-- Placeholder-cleanliness of one accumulated join clause. -/
def jcClean (j : JoinClause) : Bool :=
  strClean j.jtype && strClean j.table && strClean j.alias' && strClean j.condition

/-- Placeholder-cleanliness of every rendered string of a builder state. -/
def builderClean (b : QueryBuilder) : Bool :=
  strClean b.table && strClean b.tableAlias && b.columns.all strClean &&
  b.whereClauses.all wcClean && b.joinClauses.all jcClean && strClean b.order &&
  b.insertColumns.all strClean && b.updateColumns.all strClean

/-! ### Placeholder scanning

To state the numbering invariant the statement text is scanned for maximal
`$<digits>` tokens, exactly as a reader of the text would. -/

/-- Numeric value of a decimal digit character. -/
def dval (c : Char) : Nat := c.toNat - 48

/-- State of the placeholder scanner: outside any token, just after a `$`,
or inside the digits of a token whose value so far is `n`. -/
inductive ScanSt where
  | idle
  | dollar
  | num (n : Nat)

/-- Left-to-right scan collecting the values of all maximal `$<digits>`
tokens of a character list. -/
def scanDAux : List Char → ScanSt → List Nat
  | [], .idle => []
  | [], .dollar => []
  | [], .num n => [n]
  | c :: cs, .idle =>
    if c = '$' then scanDAux cs .dollar else scanDAux cs .idle
  | c :: cs, .dollar =>
    if c.isDigit then scanDAux cs (.num (dval c))
    else if c = '$' then scanDAux cs .dollar
    else scanDAux cs .idle
  | c :: cs, .num n =>
    if c.isDigit then scanDAux cs (.num (10 * n + dval c))
    else n :: scanDAux cs (if c = '$' then .dollar else .idle)

/-- The `$<digits>` placeholder ordinals of a string, left to right. -/
def scanD (s : String) : List Nat := scanDAux s.data .idle

/-- A list of characters that cannot extend a `$<digits>` token to its left:
empty, or starting with a character that is neither a digit nor `$`. -/
def headOk : List Char → Bool
  | [] => true
  | c :: _ => !c.isDigit && c != '$'

/-- The number of `?` placeholders of a string. -/
def countQ (s : String) : Nat := s.data.count '?'

/-! ### Spec-side definitions

The following definitions follow the SPEC's words (not the source); they are
only used to compare the spec's description with the code. -/

/-- Modelled from the spec (§4.5 strict policy + unsafe routing): the strict
stripper (`escapeSimpleIdentifier`) followed by quote doubling and wrapping —
what the spec says `safeIdentifier` does to a classifier-unsafe identifier. -/
def strictQuoteSpec (s : String) : String :=
  "\"" ++ (⟨dblQ (escapeSimpleIdentifier s).data⟩ : String) ++ "\""

/-- Modelled from the spec (§4.4 JOIN composer), with the keyword casing the
code actually uses (`as`/`on` lower-case): the fragment emitted for one
declared join. -/
def joinFragment (j : JoinClause) : String :=
  " " ++ j.jtype ++ " " ++ safeIdentifier j.table ++
    (if j.alias' != "" then " as " ++ safeIdentifier j.alias' else "") ++
    " on " ++ escapeIdentifier j.condition

/-! ### Basic lemmas about the sanitizers -/

theorem lowerChar_quote : lowerChar '"' = '"' := by decide

theorem eq_quote_of_lowerChar_eq_quote {c : Char} (h : lowerChar c = '"') :
    c = '"' := by
  unfold lowerChar at h
  split at h <;> first
  | exact absurd h (by decide)
  | exact h

theorem mem_dblQ {c : Char} {l : List Char} (h : c ∈ dblQ l) : c ∈ l ∨ c = '"' := by
  induction l with
  | nil => simp [dblQ] at h
  | cons a as ih =>
    by_cases ha : a = '"'
    · subst ha
      rw [dblQ, if_pos rfl] at h
      rcases List.mem_cons.mp h with h | h
      · exact Or.inr h
      · rcases List.mem_cons.mp h with h | h
        · exact Or.inr h
        · rcases ih h with h | h
          · exact Or.inl (List.mem_cons_of_mem _ h)
          · exact Or.inr h
    · rw [dblQ, if_neg ha] at h
      rcases List.mem_cons.mp h with h | h
      · exact Or.inl (h ▸ List.mem_cons_self _ _)
      · rcases ih h with h | h
        · exact Or.inl (List.mem_cons_of_mem _ h)
        · exact Or.inr h

theorem dblQ_map_lower (l : List Char) :
    (dblQ l).map lowerChar = dblQ (l.map lowerChar) := by
  induction l with
  | nil => rfl
  | cons c cs ih =>
    by_cases hc : c = '"'
    · subst hc
      simp [dblQ, lowerChar_quote, ih]
    · have hc' : lowerChar c ≠ '"' := fun h => hc (eq_quote_of_lowerChar_eq_quote h)
      simp [dblQ, hc, hc', ih]

theorem dblQ_pfx {k l : List Char} (hq : '"' ∉ k) (h : k <+: dblQ l) :
    k <+: l := by
  induction l generalizing k with
  | nil =>
    simp only [dblQ, List.prefix_nil] at h
    exact h ▸ List.nil_prefix
  | cons c cs ih =>
    rcases k with _ | ⟨a, k'⟩
    · exact List.nil_prefix
    · by_cases hc : c = '"'
      · subst hc
        rw [dblQ, if_pos rfl] at h
        have := (List.cons_prefix_cons.mp h).1
        exact absurd (this ▸ List.mem_cons_self _ _) hq
      · rw [dblQ, if_neg hc] at h
        obtain ⟨rfl, h'⟩ := List.cons_prefix_cons.mp h
        have hq' : '"' ∉ k' := fun hk => hq (List.mem_cons_of_mem _ hk)
        exact List.cons_prefix_cons.mpr ⟨rfl, ih hq' h'⟩

theorem infix_drop_cons {k l : List Char} {a : Char} (ha : a ∉ k)
    (h : k <:+: a :: l) : k <:+: l := by
  rcases List.infix_cons_iff.mp h with hp | hi
  · rcases k with _ | ⟨b, k'⟩
    · exact List.nil_infix
    · have := (List.cons_prefix_cons.mp hp).1
      exact absurd (this ▸ List.mem_cons_self _ _) ha
  · exact hi

theorem infix_drop_concat {k l : List Char} {a : Char} (ha : a ∉ k)
    (h : k <:+: l ++ [a]) : k <:+: l := by
  rcases List.infix_concat_iff.mp h with hs | hi
  · rcases List.suffix_concat_iff.mp hs with rfl | ⟨t, rfl, _⟩
    · exact List.nil_infix
    · exact absurd (by simp) ha
  · exact hi

theorem dblQ_infix_elim {k l : List Char} (hq : '"' ∉ k) (h : k <:+: dblQ l) :
    k <:+: l := by
  induction l with
  | nil =>
    simp only [dblQ] at h
    exact h
  | cons c cs ih =>
    by_cases hc : c = '"'
    · subst hc
      rw [dblQ, if_pos rfl] at h
      have h1 := infix_drop_cons hq h
      have h2 := infix_drop_cons hq h1
      exact (ih h2).trans (List.infix_cons (List.infix_refl _))
    · rw [dblQ, if_neg hc] at h
      rcases List.infix_cons_iff.mp h with hp | hi
      · rcases k with _ | ⟨a, k'⟩
        · exact List.nil_infix
        · obtain ⟨rfl, h'⟩ := List.cons_prefix_cons.mp hp
          have hq' : '"' ∉ k' := fun hk => hq (List.mem_cons_of_mem _ hk)
          exact (List.cons_prefix_cons.mpr ⟨rfl, dblQ_pfx hq' h'⟩).isInfix
      · exact (ih hi).trans (List.infix_cons (List.infix_refl _))

theorem stripKWAux_sublist :
    ∀ (f : Nat) (l : List Char), List.Sublist (stripKWAux f l) l
  | 0, _ => List.nil_sublist _
  | _ + 1, [] => List.nil_sublist _
  | fuel + 1, c :: cs => by
    rw [stripKWAux]
    cases h : firstKW (c :: cs) with
    | some k =>
      exact ((stripKWAux_sublist fuel (cs.drop (k - 1))).trans
        (List.drop_sublist _ _)).trans (List.sublist_cons_self _ _)
    | none => exact (stripKWAux_sublist fuel cs).cons₂ c

theorem stripKW_sublist (l : List Char) : List.Sublist (stripKW l) l :=
  stripKWAux_sublist _ _

theorem mem_stripKW {c : Char} {l : List Char} (h : c ∈ stripKW l) : c ∈ l :=
  (stripKW_sublist l).subset h

theorem safeIdentifier_eq_of_unsafe {s : String} (h : isValidIdentifier s = false) :
    safeIdentifier s =
      "\"" ++ (⟨dblQ (escapeIdentifier s).data⟩ : String) ++ "\"" := by
  unfold safeIdentifier
  rw [h]
  simp

theorem safeIdentifier_eq_of_safe {s : String} (h1 : isValidIdentifier s = true)
    (h2 : s.data.contains '"' = false) (h3 : s.data.contains '\'' = false) :
    safeIdentifier s = s := by
  unfold safeIdentifier
  rw [h1, h2, h3]
  simp

theorem not_mem_safeIdentifier {c : Char} {s : String} (hc : c ≠ '"')
    (h : c ∉ s.data) : c ∉ (safeIdentifier s).data := by
  unfold safeIdentifier
  split
  · exact h
  · intro hmem
    simp only [String.data_append] at hmem
    rcases List.mem_append.mp hmem with hmem | hmem
    · rcases List.mem_append.mp hmem with hmem | hmem
      · simp at hmem
        exact hc hmem
      · rcases mem_dblQ hmem with hmem | hmem
        · exact h (mem_stripKW hmem)
        · exact hc hmem
    · simp at hmem
      exact hc hmem

theorem not_mem_escapeIdentifier {c : Char} {s : String} (h : c ∉ s.data) :
    c ∉ (escapeIdentifier s).data := fun hc => h (mem_stripKW hc)

/-! ### Decimal rendering and the placeholder scanner -/

theorem natDigitsAux_eq {n : Nat} : ∀ {f : Nat}, n < f → natDigitsAux f n = natDigits n := by
  induction n using Nat.strong_induction_on with
  | _ n ih =>
    intro f h
    match f, h with
    | f + 1, h =>
      by_cases h10 : n < 10
      · simp [natDigitsAux, natDigits, h10]
      · have hdiv : n / 10 < n := Nat.div_lt_self (by omega) (by omega)
        rw [show natDigitsAux (f + 1) n
            = natDigitsAux f (n / 10) ++ [digitChar (n % 10)] from by
          simp [natDigitsAux, h10]]
        rw [natDigits, show natDigitsAux (n + 1) n
            = natDigitsAux n (n / 10) ++ [digitChar (n % 10)] from by
          simp [natDigitsAux, h10]]
        rw [ih _ hdiv (show n / 10 < f by omega), ih _ hdiv hdiv]

theorem natDigits_lt {n : Nat} (h : n < 10) : natDigits n = [digitChar n] := by
  simp [natDigits, natDigitsAux, h]

theorem natDigits_ge {n : Nat} (h : ¬ n < 10) :
    natDigits n = natDigits (n / 10) ++ [digitChar (n % 10)] := by
  have hdiv : n / 10 < n := Nat.div_lt_self (by omega) (by omega)
  rw [natDigits, show natDigitsAux (n + 1) n
      = natDigitsAux n (n / 10) ++ [digitChar (n % 10)] from by
    simp [natDigitsAux, h]]
  rw [natDigitsAux_eq hdiv]

theorem digitChar_isDigit {k : Nat} (h : k < 10) : (digitChar k).isDigit = true := by
  interval_cases k <;> decide

theorem dval_digitChar {k : Nat} (h : k < 10) : dval (digitChar k) = k := by
  interval_cases k <;> decide

theorem isDigit_mem_natDigits : ∀ {n : Nat}, ∀ c ∈ natDigits n, c.isDigit = true := by
  intro n
  induction n using Nat.strong_induction_on with
  | _ n ih =>
    intro c hc
    by_cases h10 : n < 10
    · rw [natDigits_lt h10] at hc
      simp at hc
      exact hc ▸ digitChar_isDigit h10
    · rw [natDigits_ge h10] at hc
      rcases List.mem_append.mp hc with hc | hc
      · exact ih _ (Nat.div_lt_self (by omega) (by omega)) _ hc
      · simp at hc
        exact hc ▸ digitChar_isDigit (Nat.mod_lt _ (by omega))

theorem natDigits_ne_nil (n : Nat) : natDigits n ≠ [] := by
  by_cases h10 : n < 10
  · rw [natDigits_lt h10]
    simp
  · rw [natDigits_ge h10]
    simp

theorem parse_natDigits : ∀ (n : Nat),
    List.foldl (fun a c => 10 * a + dval c) 0 (natDigits n) = n := by
  intro n
  induction n using Nat.strong_induction_on with
  | _ n ih =>
    by_cases h10 : n < 10
    · rw [natDigits_lt h10]
      simp [dval_digitChar h10]
    · rw [natDigits_ge h10, List.foldl_append]
      rw [ih _ (Nat.div_lt_self (by omega) (by omega))]
      simp [dval_digitChar (Nat.mod_lt n (by omega))]
      omega

theorem scanDAux_not_dollar {c : Char} {cs : List Char} (h : c ≠ '$') :
    scanDAux (c :: cs) .idle = scanDAux cs .idle := by
  simp [scanDAux, h]

theorem scanDAux_idle_append {a b : List Char} (ha : '$' ∉ a) :
    scanDAux (a ++ b) .idle = scanDAux b .idle := by
  induction a with
  | nil => rfl
  | cons c cs ih =>
    have hc : c ≠ '$' := fun h => ha (h ▸ List.mem_cons_self _ _)
    rw [List.cons_append, scanDAux_not_dollar hc,
      ih (fun h => ha (List.mem_cons_of_mem _ h))]

theorem scanDAux_idle_clean {b : List Char} (hb : '$' ∉ b) :
    scanDAux b .idle = [] := by
  induction b with
  | nil => rfl
  | cons c cs ih =>
    have hc : c ≠ '$' := fun h => hb (h ▸ List.mem_cons_self _ _)
    rw [scanDAux_not_dollar hc, ih (fun h => hb (List.mem_cons_of_mem _ h))]

theorem scanDAux_digits {ds : List Char} (hds : ∀ c ∈ ds, c.isDigit = true) :
    ∀ (rest : List Char) (m : Nat), scanDAux (ds ++ rest) (.num m) =
      scanDAux rest (.num (List.foldl (fun a c => 10 * a + dval c) m ds)) := by
  induction ds with
  | nil => intro rest m; rfl
  | cons d ds ih =>
    intro rest m
    have hd := hds d (List.mem_cons_self _ _)
    rw [List.cons_append, show scanDAux (d :: (ds ++ rest)) (.num m)
        = scanDAux (ds ++ rest) (.num (10 * m + dval d)) from by
      simp [scanDAux, hd]]
    rw [ih (fun c hc => hds c (List.mem_cons_of_mem _ hc)) rest (10 * m + dval d)]
    simp

theorem scanDAux_num_exit {rest : List Char} (h : headOk rest = true) (n : Nat) :
    scanDAux rest (.num n) = n :: scanDAux rest .idle := by
  cases rest with
  | nil => rfl
  | cons c cs =>
    rw [headOk] at h
    obtain ⟨hd, hds⟩ := Bool.and_eq_true_iff.mp h
    have hd' : ¬ c.isDigit = true := by simpa using hd
    have hds' : c ≠ '$' := by simpa using hds
    rw [show scanDAux (c :: cs) (.num n)
        = n :: scanDAux cs .idle from by simp [scanDAux, hd', hds']]
    rw [scanDAux_not_dollar hds']

theorem scan_chunk {pre rest : List Char} {k : Nat} (hpre : '$' ∉ pre)
    (hrest : headOk rest) :
    scanDAux (pre ++ '$' :: (natDigits k ++ rest)) .idle
      = k :: scanDAux rest .idle := by
  rw [scanDAux_idle_append hpre]
  obtain ⟨d, ds, hd⟩ := List.exists_cons_of_ne_nil (natDigits_ne_nil k)
  have hdigs : ∀ c ∈ d :: ds, c.isDigit = true := hd ▸ isDigit_mem_natDigits
  have hdd : d.isDigit = true := hdigs d (List.mem_cons_self _ _)
  rw [hd]
  rw [show scanDAux ('$' :: (d :: ds ++ rest)) .idle
      = scanDAux (d :: ds ++ rest) .dollar from by simp [scanDAux]]
  rw [List.cons_append, show scanDAux (d :: (ds ++ rest)) .dollar
      = scanDAux (ds ++ rest) (.num (dval d)) from by simp [scanDAux, hdd]]
  rw [scanDAux_digits (fun c hc => hdigs c (List.mem_cons_of_mem _ hc)) rest (dval d)]
  rw [scanDAux_num_exit hrest]
  congr 1
  have hp := parse_natDigits k
  rw [hd] at hp
  simpa using hp

/-! ### Fragment-level placeholder lemmas -/

@[simp] theorem natRepr_data (n : Nat) : (natRepr n).data = natDigits n := rfl

@[simp] theorem data_dollar : ("$" : String).data = ['$'] := rfl

theorem not_mem_append₂ {c : Char} {a b : List Char} (ha : c ∉ a) (hb : c ∉ b) :
    c ∉ a ++ b := by
  intro h
  rcases List.mem_append.mp h with h | h
  · exact ha h
  · exact hb h

theorem headOk_append_left {a b : List Char} (ha : a ≠ []) (h : headOk a = true) :
    headOk (a ++ b) = true := by
  cases a with
  | nil => exact absurd rfl ha
  | cons c cs => exact h

theorem whereLoop_cons (st : ParameterStyle) (w : WhereClause) (ws : List WhereClause)
    (n : Nat) (first : Bool) :
    QueryBuilder.whereLoop st (w :: ws) n first
      = ((if first then "" else " " ++ w.joinType ++ " ") ++ safeIdentifier w.column
          ++ " " ++ escapeIdentifier w.operator ++ " "
          ++ QueryBuilder.getPlaceholder st (n + 1)
          ++ (QueryBuilder.whereLoop st ws (n + 1) false).1,
        w.value :: (QueryBuilder.whereLoop st ws (n + 1) false).2.1,
        (QueryBuilder.whereLoop st ws (n + 1) false).2.2) := by
  simp [QueryBuilder.whereLoop]

theorem whereLoop_params (st : ParameterStyle) (ws : List WhereClause) :
    ∀ (n : Nat) (first : Bool),
      (QueryBuilder.whereLoop st ws n first).2.1 = ws.map (fun w => w.value) := by
  induction ws with
  | nil => intro n first; rfl
  | cons w ws ih =>
    intro n first
    rw [whereLoop_cons, List.map_cons]
    exact congrArg _ (ih (n + 1) false)

theorem whereLoop_headOk {st : ParameterStyle} {ws : List WhereClause} {n : Nat}
    {rest : List Char} (hrest : headOk rest = true) :
    headOk ((QueryBuilder.whereLoop st ws n false).1.data ++ rest) = true := by
  cases ws with
  | nil => exact hrest
  | cons w ws =>
    rw [whereLoop_cons]
    simp only [if_neg (Bool.false_ne_true)]
    refine headOk_append_left ?_ ?_
    · simp [String.data_append]
    · rw [show ((" " ++ w.joinType ++ " ") ++ safeIdentifier w.column ++ " "
          ++ escapeIdentifier w.operator ++ " "
          ++ QueryBuilder.getPlaceholder st (n + 1)
          ++ (QueryBuilder.whereLoop st ws (n + 1) false).1).data
          = ' ' :: (w.joinType ++ " " ++ safeIdentifier w.column ++ " "
              ++ escapeIdentifier w.operator ++ " "
              ++ QueryBuilder.getPlaceholder st (n + 1)
              ++ (QueryBuilder.whereLoop st ws (n + 1) false).1).data from by
        simp [String.data_append]]
      rfl

theorem scan_whereLoop {ws : List WhereClause} :
    ∀ {n : Nat} {first : Bool} {rest : List Char},
    (∀ w ∈ ws, '$' ∉ w.column.data ∧ '$' ∉ w.operator.data ∧ '$' ∉ w.joinType.data) →
    headOk rest = true →
    scanDAux ((QueryBuilder.whereLoop .DollarNumber ws n first).1.data ++ rest) .idle
      = List.range' (n + 1) ws.length ++ scanDAux rest .idle := by
  induction ws with
  | nil =>
    intro n first rest _ _
    simp [QueryBuilder.whereLoop]
  | cons w ws ih =>
    intro n first rest hcl hrest
    obtain ⟨hc, ho, hj⟩ := hcl w (List.mem_cons_self _ _)
    have hsep : '$' ∉ (if first then "" else " " ++ w.joinType ++ " ").data := by
      cases first
      · simp only [if_neg (Bool.false_ne_true), String.data_append]
        refine not_mem_append₂ (not_mem_append₂ (by decide) hj) (by decide)
      · simp
    have hpre : '$' ∉ ((if first then "" else " " ++ w.joinType ++ " ")
        ++ safeIdentifier w.column ++ " " ++ escapeIdentifier w.operator ++ " ").data := by
      simp only [String.data_append]
      refine not_mem_append₂ (not_mem_append₂ (not_mem_append₂ (not_mem_append₂ hsep
        (not_mem_safeIdentifier (by decide) hc)) (by decide))
        (not_mem_escapeIdentifier ho)) (by decide)
    have hdata : (QueryBuilder.whereLoop .DollarNumber (w :: ws) n first).1.data ++ rest
        = ((if first then "" else " " ++ w.joinType ++ " ") ++ safeIdentifier w.column
            ++ " " ++ escapeIdentifier w.operator ++ " ").data
          ++ '$' :: (natDigits (n + 1)
            ++ ((QueryBuilder.whereLoop .DollarNumber ws (n + 1) false).1.data ++ rest)) := by
      rw [whereLoop_cons]
      simp [QueryBuilder.getPlaceholder, String.data_append]
    rw [hdata, scan_chunk hpre (whereLoop_headOk hrest)]
    rw [ih (fun w hw => hcl w (List.mem_cons_of_mem _ hw)) hrest]
    simp [List.range'_succ]

theorem setPieces_cons (st : ParameterStyle) (c : String) (cs : List String) (k : Nat) :
    QueryBuilder.setPieces st (c :: cs) k
      = (safeIdentifier c ++ " = " ++ QueryBuilder.getPlaceholder st (k + 1))
        :: QueryBuilder.setPieces st cs (k + 1) := rfl

theorem scan_setPieces {cols : List String} :
    ∀ {k : Nat} {rest : List Char},
    (∀ c ∈ cols, '$' ∉ c.data) → headOk rest = true →
    scanDAux ((QueryBuilder.goJoin ", " (QueryBuilder.setPieces .DollarNumber cols k)).data
        ++ rest) .idle
      = List.range' (k + 1) cols.length ++ scanDAux rest .idle := by
  induction cols with
  | nil =>
    intro k rest _ _
    simp [QueryBuilder.setPieces, QueryBuilder.goJoin]
  | cons c cs ih =>
    intro k rest hcl hrest
    have hc := hcl c (List.mem_cons_self _ _)
    have hpre : '$' ∉ (safeIdentifier c ++ " = ").data := by
      simp only [String.data_append]
      exact not_mem_append₂ (not_mem_safeIdentifier (by decide) hc) (by decide)
    cases cs with
    | nil =>
      have hdata : (QueryBuilder.goJoin ", "
            (QueryBuilder.setPieces .DollarNumber [c] k)).data ++ rest
          = (safeIdentifier c ++ " = ").data ++ '$' :: (natDigits (k + 1) ++ rest) := by
        rw [setPieces_cons]
        simp [QueryBuilder.setPieces, QueryBuilder.goJoin, QueryBuilder.getPlaceholder,
          String.data_append]
      rw [hdata, scan_chunk hpre hrest]
      simp
    | cons c' cs' =>
      have hdata : (QueryBuilder.goJoin ", "
            (QueryBuilder.setPieces .DollarNumber (c :: c' :: cs') k)).data ++ rest
          = (safeIdentifier c ++ " = ").data ++ '$' :: (natDigits (k + 1)
              ++ ((", " : String).data ++ ((QueryBuilder.goJoin ", "
                (QueryBuilder.setPieces .DollarNumber (c' :: cs') (k + 1))).data ++ rest))) := by
        rw [setPieces_cons, setPieces_cons]
        simp [QueryBuilder.goJoin, QueryBuilder.getPlaceholder, String.data_append]
      have hrest' : headOk ((", " : String).data ++ ((QueryBuilder.goJoin ", "
          (QueryBuilder.setPieces .DollarNumber (c' :: cs') (k + 1))).data ++ rest)) = true :=
        headOk_append_left (by decide) (by decide)
      rw [hdata, scan_chunk hpre hrest']
      rw [scanDAux_idle_append (by decide : '$' ∉ (", " : String).data)]
      rw [ih (fun x hx => hcl x (List.mem_cons_of_mem _ hx)) hrest]
      simp [List.range'_succ]

theorem scan_phPieces :
    ∀ (m : Nat) {k : Nat} {rest : List Char}, headOk rest = true →
    scanDAux ((QueryBuilder.goJoin ", " (QueryBuilder.phPieces .DollarNumber k m)).data
        ++ rest) .idle
      = List.range' (k + 1) m ++ scanDAux rest .idle := by
  intro m
  induction m with
  | zero =>
    intro k rest _
    simp [QueryBuilder.phPieces, QueryBuilder.goJoin]
  | succ m ih =>
    intro k rest hrest
    cases m with
    | zero =>
      have hdata : (QueryBuilder.goJoin ", "
            (QueryBuilder.phPieces .DollarNumber k 1)).data ++ rest
          = ([] : List Char) ++ '$' :: (natDigits (k + 1) ++ rest) := by
        simp [QueryBuilder.phPieces, QueryBuilder.goJoin, QueryBuilder.getPlaceholder,
          String.data_append]
      rw [hdata, scan_chunk (by decide) hrest]
      simp
    | succ m' =>
      have hdata : (QueryBuilder.goJoin ", "
            (QueryBuilder.phPieces .DollarNumber k (m' + 2))).data ++ rest
          = ([] : List Char) ++ '$' :: (natDigits (k + 1)
              ++ ((", " : String).data ++ ((QueryBuilder.goJoin ", "
                (QueryBuilder.phPieces .DollarNumber (k + 1) (m' + 1))).data ++ rest))) := by
        rw [show QueryBuilder.phPieces .DollarNumber k (m' + 2)
            = QueryBuilder.getPlaceholder .DollarNumber (k + 1)
              :: QueryBuilder.phPieces .DollarNumber (k + 1) (m' + 1) from rfl]
        rw [show QueryBuilder.phPieces .DollarNumber (k + 1) (m' + 1)
            = QueryBuilder.getPlaceholder .DollarNumber (k + 2)
              :: QueryBuilder.phPieces .DollarNumber (k + 2) m' from rfl]
        simp [QueryBuilder.goJoin, QueryBuilder.getPlaceholder, String.data_append]
      have hrest' : headOk ((", " : String).data ++ ((QueryBuilder.goJoin ", "
          (QueryBuilder.phPieces .DollarNumber (k + 1) (m' + 1))).data ++ rest)) = true :=
        headOk_append_left (by decide) (by decide)
      rw [hdata, scan_chunk (by decide) hrest']
      rw [scanDAux_idle_append (by decide : '$' ∉ (", " : String).data)]
      rw [ih hrest]
      simp [List.range'_succ]

/-! ### QuestionMark counting lemmas -/

theorem count_zero_of_not_mem {c : Char} {l : List Char} (h : c ∉ l) :
    l.count c = 0 := List.count_eq_zero.mpr h

theorem countQ_whereLoop {ws : List WhereClause} :
    ∀ {n : Nat} {first : Bool},
    (∀ w ∈ ws, '?' ∉ w.column.data ∧ '?' ∉ w.operator.data ∧ '?' ∉ w.joinType.data) →
    (QueryBuilder.whereLoop .QuestionMark ws n first).1.data.count '?' = ws.length := by
  induction ws with
  | nil => intro n first _; rfl
  | cons w ws ih =>
    intro n first hcl
    obtain ⟨hc, ho, hj⟩ := hcl w (List.mem_cons_self _ _)
    rw [whereLoop_cons]
    simp only [String.data_append, List.count_append]
    rw [count_zero_of_not_mem (not_mem_safeIdentifier (by decide) hc)]
    rw [count_zero_of_not_mem (not_mem_escapeIdentifier ho)]
    rw [show (if first then "" else " " ++ w.joinType ++ " ").data.count '?' = 0 from by
      cases first
      · simp only [Bool.false_eq_true, if_false, String.data_append, List.count_append,
          count_zero_of_not_mem hj]
        decide
      · simp]
    rw [ih (fun x hx => hcl x (List.mem_cons_of_mem _ hx))]
    simp [QueryBuilder.getPlaceholder]
    omega

theorem countQ_setPieces {cols : List String} :
    ∀ {k : Nat},
    (∀ c ∈ cols, '?' ∉ c.data) →
    (QueryBuilder.goJoin ", "
        (QueryBuilder.setPieces .QuestionMark cols k)).data.count '?' = cols.length := by
  induction cols with
  | nil => intro k _; rfl
  | cons c cs ih =>
    intro k hcl
    have hc := hcl c (List.mem_cons_self _ _)
    cases cs with
    | nil =>
      rw [setPieces_cons]
      show ((safeIdentifier c ++ " = "
        ++ QueryBuilder.getPlaceholder .QuestionMark (k + 1))).data.count '?' = 1
      simp only [String.data_append, List.count_append]
      rw [count_zero_of_not_mem (not_mem_safeIdentifier (by decide) hc)]
      simp [QueryBuilder.getPlaceholder]
    | cons c' cs' =>
      rw [setPieces_cons]
      rw [show QueryBuilder.goJoin ", "
          ((safeIdentifier c ++ " = " ++ QueryBuilder.getPlaceholder .QuestionMark (k + 1))
            :: QueryBuilder.setPieces .QuestionMark (c' :: cs') (k + 1))
          = (safeIdentifier c ++ " = " ++ QueryBuilder.getPlaceholder .QuestionMark (k + 1))
            ++ ", " ++ QueryBuilder.goJoin ", "
              (QueryBuilder.setPieces .QuestionMark (c' :: cs') (k + 1)) from rfl]
      simp only [String.data_append, List.count_append]
      rw [count_zero_of_not_mem (not_mem_safeIdentifier (by decide) hc)]
      rw [ih (fun x hx => hcl x (List.mem_cons_of_mem _ hx))]
      simp [QueryBuilder.getPlaceholder]
      omega

theorem countQ_phPieces :
    ∀ (m : Nat) (k : Nat),
    (QueryBuilder.goJoin ", "
        (QueryBuilder.phPieces .QuestionMark k m)).data.count '?' = m := by
  intro m
  induction m with
  | zero => intro k; rfl
  | succ m ih =>
    intro k
    cases m with
    | zero => rfl
    | succ m' =>
      rw [show QueryBuilder.goJoin ", "
          (QueryBuilder.phPieces .QuestionMark k (m' + 2))
          = QueryBuilder.getPlaceholder .QuestionMark (k + 1) ++ ", "
            ++ QueryBuilder.goJoin ", "
              (QueryBuilder.phPieces .QuestionMark (k + 1) (m' + 1)) from rfl]
      simp only [String.data_append, List.count_append]
      rw [ih (k + 1)]
      simp [QueryBuilder.getPlaceholder]
      omega

/-! ### Component absence lemmas -/

theorem not_mem_natDigits {c : Char} (h : c.isDigit = false) (n : Nat) :
    c ∉ natDigits n := by
  intro hc
  have := isDigit_mem_natDigits c hc
  rw [h] at this
  exact Bool.false_ne_true this

theorem not_mem_goJoin {c : Char} {sep : String} {xs : List String}
    (hsep : c ∉ sep.data) (h : ∀ s ∈ xs, c ∉ s.data) :
    c ∉ (QueryBuilder.goJoin sep xs).data := by
  induction xs with
  | nil => simp [QueryBuilder.goJoin]
  | cons x xs ih =>
    cases xs with
    | nil => exact h x (List.mem_cons_self _ _)
    | cons y ys =>
      rw [show QueryBuilder.goJoin sep (x :: y :: ys)
          = x ++ sep ++ QueryBuilder.goJoin sep (y :: ys) from rfl]
      simp only [String.data_append]
      exact not_mem_append₂ (not_mem_append₂ (h x (List.mem_cons_self _ _)) hsep)
        (ih (fun s hs => h s (List.mem_cons_of_mem _ hs)))

theorem not_mem_joinsText {c : Char} (hc : c = '$' ∨ c = '?') {js : List JoinClause}
    (h : ∀ j ∈ js, c ∉ j.jtype.data ∧ c ∉ j.table.data ∧ c ∉ j.alias'.data ∧
      c ∉ j.condition.data) :
    c ∉ (QueryBuilder.joinsText js).data := by
  induction js with
  | nil => simp [QueryBuilder.joinsText]
  | cons j js ih =>
    obtain ⟨h1, h2, h3, h4⟩ := h j (List.mem_cons_self _ _)
    have hq : c ≠ '"' := by rcases hc with rfl | rfl <;> decide
    have hsafe := not_mem_safeIdentifier hq h2
    have hsafea := not_mem_safeIdentifier hq h3
    have hesc := not_mem_escapeIdentifier h4
    have hih := ih (fun x hx => h x (List.mem_cons_of_mem _ hx))
    rw [QueryBuilder.joinsText]
    by_cases halias : (j.alias' != "") = true
    · rw [if_pos halias]
      rcases hc with rfl | rfl <;>
      · intro hmem
        simp only [String.data_append, List.mem_append] at hmem
        simp at hmem
        tauto
    · rw [if_neg halias]
      rcases hc with rfl | rfl <;>
      · intro hmem
        simp only [String.data_append, List.mem_append] at hmem
        simp at hmem
        tauto

theorem not_mem_tailText {c : Char} (hc : c = '$' ∨ c = '?')
    {b : QueryBuilder} {wo : Bool} (ho : c ∉ b.order.data) :
    c ∉ (QueryBuilder.tailText b wo).data := by
  have hq : c ≠ '"' := by rcases hc with rfl | rfl <;> decide
  have hd : c.isDigit = false := by rcases hc with rfl | rfl <;> decide
  have hsafe := not_mem_safeIdentifier hq ho
  have hd1 := not_mem_natDigits hd b.limit.toNat
  have hd2 := not_mem_natDigits hd b.offset.toNat
  unfold QueryBuilder.tailText
  simp only [String.data_append]
  refine not_mem_append₂ (not_mem_append₂ ?_ ?_) ?_
  · split
    · rcases hc with rfl | rfl <;>
      · intro hmem
        simp only [String.data_append, List.mem_append, natRepr_data] at hmem
        simp at hmem
        tauto
    · simp
  · split
    · rcases hc with rfl | rfl <;>
      · intro hmem
        simp only [String.data_append, List.mem_append, natRepr_data] at hmem
        simp at hmem
        tauto
    · simp
  · split
    · rcases hc with rfl | rfl <;>
      · intro hmem
        simp only [String.data_append, List.mem_append, natRepr_data] at hmem
        simp at hmem
        tauto
    · simp

theorem headOk_tailText (b : QueryBuilder) (wo : Bool) :
    headOk (QueryBuilder.tailText b wo).data = true := by
  unfold QueryBuilder.tailText
  split
  · rw [show ((" order by " ++ safeIdentifier b.order)
        ++ (if b.limit > 0 then " limit " ++ natRepr b.limit.toNat else "")
        ++ (if wo && b.offset > 0 then " offset " ++ natRepr b.offset.toNat else "")).data
        = ' ' :: ("order by " ++ safeIdentifier b.order
          ++ (if b.limit > 0 then " limit " ++ natRepr b.limit.toNat else "")
          ++ (if wo && b.offset > 0 then " offset " ++ natRepr b.offset.toNat else "")).data
        from by simp [String.data_append]]
    rfl
  · split
    · rw [show (("" : String) ++ (" limit " ++ natRepr b.limit.toNat)
          ++ (if wo && b.offset > 0 then " offset " ++ natRepr b.offset.toNat else "")).data
          = ' ' :: (("limit " ++ natRepr b.limit.toNat)
            ++ (if wo && b.offset > 0 then " offset " ++ natRepr b.offset.toNat else "")).data
          from by simp [String.data_append]]
      rfl
    · split
      · rw [show (("" : String) ++ ("" : String)
            ++ (" offset " ++ natRepr b.offset.toNat)).data
            = ' ' :: ("offset " ++ natRepr b.offset.toNat).data
            from by simp [String.data_append]]
        rfl
      · rfl

/-! ### Renderer-level placeholder lemmas -/

theorem headOk_whereText (s : String) : headOk (" where " ++ s).data = true := rfl

theorem buildWhereClause_fst (b : QueryBuilder) (n : Nat) :
    (b.buildWhereClause n).1
      = " where " ++ (QueryBuilder.whereLoop b.paramStyle b.whereClauses n true).1 := rfl

theorem buildWhereClause_params (b : QueryBuilder) (n : Nat) :
    (b.buildWhereClause n).2.1
      = (QueryBuilder.whereLoop b.paramStyle b.whereClauses n true).2.1 := rfl

theorem headOk_whereOpt {b : QueryBuilder} {n : Nat} {rest : List Char}
    (hrest : headOk rest = true) :
    headOk ((QueryBuilder.whereOpt b n).1.data ++ rest) = true := by
  unfold QueryBuilder.whereOpt
  split
  · rw [buildWhereClause_fst]
    exact headOk_append_left (by simp [String.data_append]) (headOk_whereText _)
  · simpa using hrest

theorem scan_whereOpt {b : QueryBuilder} {n : Nat} {rest : List Char}
    (hws : ∀ w ∈ b.whereClauses, '$' ∉ w.column.data ∧ '$' ∉ w.operator.data ∧
      '$' ∉ w.joinType.data)
    (hst : b.paramStyle = .DollarNumber) (hrest : headOk rest = true) :
    scanDAux ((QueryBuilder.whereOpt b n).1.data ++ rest) .idle
      = List.range' (n + 1) b.whereClauses.length ++ scanDAux rest .idle := by
  unfold QueryBuilder.whereOpt
  split
  · rw [buildWhereClause_fst, hst]
    simp only [String.data_append, List.append_assoc]
    rw [scanDAux_idle_append (by decide : '$' ∉ (" where " : String).data)]
    rw [scan_whereLoop hws hrest]
  · rename_i hlen
    have h0 : b.whereClauses.length = 0 := by omega
    rw [h0]
    simpa using rfl

theorem whereOpt_params_len {b : QueryBuilder} {n : Nat} :
    (QueryBuilder.whereOpt b n).2.length = b.whereClauses.length := by
  unfold QueryBuilder.whereOpt
  split
  · rw [buildWhereClause_params, whereLoop_params]
    simp
  · rename_i hlen
    simp only [List.length_nil]
    omega

theorem countQ_whereOpt {b : QueryBuilder} {n : Nat}
    (hws : ∀ w ∈ b.whereClauses, '?' ∉ w.column.data ∧ '?' ∉ w.operator.data ∧
      '?' ∉ w.joinType.data)
    (hst : b.paramStyle = .QuestionMark) :
    (QueryBuilder.whereOpt b n).1.data.count '?' = b.whereClauses.length := by
  unfold QueryBuilder.whereOpt
  split
  · rw [buildWhereClause_fst, hst]
    simp only [String.data_append, List.count_append]
    rw [countQ_whereLoop hws]
    rw [show ((" where " : String).data.count '?') = 0 from rfl]
    omega
  · rename_i hlen
    show List.count '?' ("" : String).data = b.whereClauses.length
    rw [show List.count '?' ("" : String).data = 0 from rfl]
    omega

theorem not_mem_selectBase {c : Char} (hc : c = '$' ∨ c = '?') {b : QueryBuilder}
    (hcols : ∀ s ∈ b.columns, c ∉ s.data) (htab : c ∉ b.table.data)
    (hal : c ∉ b.tableAlias.data)
    (hjoins : ∀ j ∈ b.joinClauses, c ∉ j.jtype.data ∧ c ∉ j.table.data ∧
      c ∉ j.alias'.data ∧ c ∉ j.condition.data) :
    c ∉ (QueryBuilder.selectBase b).data := by
  have hq : c ≠ '"' := by rcases hc with rfl | rfl <;> decide
  have hgo : c ∉ (QueryBuilder.goJoin ", " (b.columns.map safeIdentifier)).data :=
    not_mem_goJoin (by rcases hc with rfl | rfl <;> decide) (by
      intro s hs
      obtain ⟨x, hx, rfl⟩ := List.mem_map.mp hs
      exact not_mem_safeIdentifier hq (hcols x hx))
  have hjt := not_mem_joinsText hc hjoins
  have hsafet := not_mem_safeIdentifier hq htab
  have hsafea := not_mem_safeIdentifier hq hal
  unfold QueryBuilder.selectBase
  simp only [String.data_append]
  refine not_mem_append₂ (not_mem_append₂ (not_mem_append₂ (not_mem_append₂
    (not_mem_append₂ (by rcases hc with rfl | rfl <;> decide) hgo)
    (by rcases hc with rfl | rfl <;> decide)) hsafet) ?_) hjt
  split
  · simp only [String.data_append]
    exact not_mem_append₂ (by rcases hc with rfl | rfl <;> decide) hsafea
  · simp

theorem scanD_buildSelect {b : QueryBuilder}
    (hcols : ∀ s ∈ b.columns, '$' ∉ s.data) (htab : '$' ∉ b.table.data)
    (hal : '$' ∉ b.tableAlias.data)
    (hjoins : ∀ j ∈ b.joinClauses, '$' ∉ j.jtype.data ∧ '$' ∉ j.table.data ∧
      '$' ∉ j.alias'.data ∧ '$' ∉ j.condition.data)
    (hws : ∀ w ∈ b.whereClauses, '$' ∉ w.column.data ∧ '$' ∉ w.operator.data ∧
      '$' ∉ w.joinType.data)
    (hord : '$' ∉ b.order.data)
    (hst : b.paramStyle = .DollarNumber) :
    scanD (b.buildSelect).SQL = List.range' 1 (b.buildSelect).Params.length := by
  have hbase := not_mem_selectBase (Or.inl rfl) hcols htab hal hjoins
  have htail : '$' ∉ (QueryBuilder.tailText b true).data :=
    not_mem_tailText (Or.inl rfl) hord
  show scanDAux ((QueryBuilder.selectBase b ++ (QueryBuilder.whereOpt b 0).1
    ++ QueryBuilder.tailText b true)).data .idle
      = List.range' 1 (QueryBuilder.whereOpt b 0).2.length
  simp only [String.data_append, List.append_assoc]
  rw [scanDAux_idle_append hbase]
  rw [scan_whereOpt hws hst (headOk_tailText b true)]
  rw [scanDAux_idle_clean htail]
  rw [whereOpt_params_len]
  simp

theorem countQ_buildSelect {b : QueryBuilder}
    (hcols : ∀ s ∈ b.columns, '?' ∉ s.data) (htab : '?' ∉ b.table.data)
    (hal : '?' ∉ b.tableAlias.data)
    (hjoins : ∀ j ∈ b.joinClauses, '?' ∉ j.jtype.data ∧ '?' ∉ j.table.data ∧
      '?' ∉ j.alias'.data ∧ '?' ∉ j.condition.data)
    (hws : ∀ w ∈ b.whereClauses, '?' ∉ w.column.data ∧ '?' ∉ w.operator.data ∧
      '?' ∉ w.joinType.data)
    (hord : '?' ∉ b.order.data)
    (hst : b.paramStyle = .QuestionMark) :
    countQ (b.buildSelect).SQL = (b.buildSelect).Params.length := by
  have hbase := not_mem_selectBase (Or.inr rfl) hcols htab hal hjoins
  have htail : '?' ∉ (QueryBuilder.tailText b true).data :=
    not_mem_tailText (Or.inr rfl) hord
  show ((QueryBuilder.selectBase b ++ (QueryBuilder.whereOpt b 0).1
    ++ QueryBuilder.tailText b true)).data.count '?' = (QueryBuilder.whereOpt b 0).2.length
  simp only [String.data_append, List.count_append]
  rw [count_zero_of_not_mem hbase, count_zero_of_not_mem htail,
    countQ_whereOpt hws hst, whereOpt_params_len]
  omega

theorem scanD_buildInsert {b : QueryBuilder} (htab : '$' ∉ b.table.data)
    (hcols : ∀ s ∈ b.insertColumns, '$' ∉ s.data)
    (hst : b.paramStyle = .DollarNumber) :
    scanD (b.buildInsert).SQL = List.range' 1 (b.buildInsert).Params.length := by
  have hsafet := not_mem_safeIdentifier (by decide) htab
  have hgo : '$' ∉ (QueryBuilder.goJoin ", " (b.insertColumns.map safeIdentifier)).data :=
    not_mem_goJoin (by decide) (by
      intro s hs
      obtain ⟨x, hx, rfl⟩ := List.mem_map.mp hs
      exact not_mem_safeIdentifier (by decide) (hcols x hx))
  unfold QueryBuilder.buildInsert
  rw [hst]
  split
  · show scanDAux (("insert into " ++ safeIdentifier b.table ++ " (" ++
      QueryBuilder.goJoin ", " (b.insertColumns.map safeIdentifier) ++
      ") values (" ++ QueryBuilder.goJoin ", "
        (QueryBuilder.phPieces .DollarNumber 0 b.insertValues.length) ++ ")").data) .idle
      = List.range' 1 b.insertValues.length
    simp only [String.data_append, List.append_assoc]
    rw [scanDAux_idle_append (by decide : '$' ∉ ("insert into " : String).data)]
    rw [scanDAux_idle_append hsafet]
    rw [scanDAux_idle_append (by decide : '$' ∉ (" (" : String).data)]
    rw [scanDAux_idle_append hgo]
    rw [scanDAux_idle_append (by decide : '$' ∉ (") values (" : String).data)]
    rw [scan_phPieces b.insertValues.length (by decide : headOk (")" : String).data = true)]
    rw [scanDAux_idle_clean (by decide : '$' ∉ (")" : String).data)]
    simp
  · show scanDAux (("insert into " ++ safeIdentifier b.table).data) .idle
      = List.range' 1 ([] : List Val).length
    simp only [String.data_append]
    rw [scanDAux_idle_clean (not_mem_append₂ (by decide) hsafet)]
    simp

theorem countQ_buildInsert {b : QueryBuilder} (htab : '?' ∉ b.table.data)
    (hcols : ∀ s ∈ b.insertColumns, '?' ∉ s.data)
    (hst : b.paramStyle = .QuestionMark) :
    countQ (b.buildInsert).SQL = (b.buildInsert).Params.length := by
  have hsafet := not_mem_safeIdentifier (by decide) htab
  have hgo : '?' ∉ (QueryBuilder.goJoin ", " (b.insertColumns.map safeIdentifier)).data :=
    not_mem_goJoin (by decide) (by
      intro s hs
      obtain ⟨x, hx, rfl⟩ := List.mem_map.mp hs
      exact not_mem_safeIdentifier (by decide) (hcols x hx))
  unfold QueryBuilder.buildInsert
  rw [hst]
  split
  · show (("insert into " ++ safeIdentifier b.table ++ " (" ++
      QueryBuilder.goJoin ", " (b.insertColumns.map safeIdentifier) ++
      ") values (" ++ QueryBuilder.goJoin ", "
        (QueryBuilder.phPieces .QuestionMark 0 b.insertValues.length) ++ ")").data).count '?'
      = b.insertValues.length
    simp only [String.data_append, List.count_append]
    rw [count_zero_of_not_mem hsafet, count_zero_of_not_mem hgo]
    rw [countQ_phPieces b.insertValues.length 0]
    rw [show (("insert into " : String).data).count '?' = 0 from rfl]
    rw [show ((" (" : String).data).count '?' = 0 from rfl]
    rw [show ((") values (" : String).data).count '?' = 0 from rfl]
    rw [show (((")" : String)).data).count '?' = 0 from rfl]
    omega
  · show (("insert into " ++ safeIdentifier b.table).data).count '?'
      = ([] : List Val).length
    simp only [String.data_append, List.count_append]
    rw [count_zero_of_not_mem hsafet]
    rw [show (("insert into " : String).data).count '?' = 0 from rfl]
    rfl

theorem scanD_buildUpdate {b : QueryBuilder} (htab : '$' ∉ b.table.data)
    (hucols : ∀ s ∈ b.updateColumns, '$' ∉ s.data)
    (hws : ∀ w ∈ b.whereClauses, '$' ∉ w.column.data ∧ '$' ∉ w.operator.data ∧
      '$' ∉ w.joinType.data)
    (hord : '$' ∉ b.order.data)
    (hlen : b.updateColumns.length = b.updateValues.length)
    (hst : b.paramStyle = .DollarNumber) :
    scanD (b.buildUpdate).SQL = List.range' 1 (b.buildUpdate).Params.length := by
  have hsafet := not_mem_safeIdentifier (by decide) htab
  show scanDAux ((QueryBuilder.updateBase b
      ++ (QueryBuilder.whereOpt b b.updateColumns.length).1
      ++ QueryBuilder.tailText b false).data) .idle
    = List.range' 1 (b.updateValues
      ++ (QueryBuilder.whereOpt b b.updateColumns.length).2).length
  unfold QueryBuilder.updateBase
  rw [hst]
  simp only [String.data_append, List.append_assoc]
  rw [scanDAux_idle_append (by decide : '$' ∉ ("update " : String).data)]
  rw [scanDAux_idle_append hsafet]
  rw [scanDAux_idle_append (by decide : '$' ∉ (" set " : String).data)]
  rw [scan_setPieces hucols (headOk_whereOpt (headOk_tailText b false))]
  rw [scan_whereOpt hws hst (headOk_tailText b false)]
  rw [scanDAux_idle_clean (not_mem_tailText (Or.inl rfl) hord)]
  rw [List.length_append, whereOpt_params_len, ← hlen, List.append_nil]
  rw [show b.updateColumns.length + 1 = 1 + b.updateColumns.length from
    Nat.add_comm _ _]
  have hr := List.range'_append_1 1 b.updateColumns.length b.whereClauses.length
  rw [Nat.add_comm b.whereClauses.length b.updateColumns.length] at hr
  simpa using hr

theorem countQ_buildUpdate {b : QueryBuilder} (htab : '?' ∉ b.table.data)
    (hucols : ∀ s ∈ b.updateColumns, '?' ∉ s.data)
    (hws : ∀ w ∈ b.whereClauses, '?' ∉ w.column.data ∧ '?' ∉ w.operator.data ∧
      '?' ∉ w.joinType.data)
    (hord : '?' ∉ b.order.data)
    (hlen : b.updateColumns.length = b.updateValues.length)
    (hst : b.paramStyle = .QuestionMark) :
    countQ (b.buildUpdate).SQL = (b.buildUpdate).Params.length := by
  have hsafet := not_mem_safeIdentifier (by decide) htab
  show ((QueryBuilder.updateBase b
      ++ (QueryBuilder.whereOpt b b.updateColumns.length).1
      ++ QueryBuilder.tailText b false).data).count '?'
    = (b.updateValues ++ (QueryBuilder.whereOpt b b.updateColumns.length).2).length
  unfold QueryBuilder.updateBase
  rw [hst]
  simp only [String.data_append, List.count_append]
  rw [count_zero_of_not_mem hsafet]
  rw [count_zero_of_not_mem (not_mem_tailText (Or.inr rfl) hord)]
  rw [countQ_setPieces hucols, countQ_whereOpt hws hst]
  rw [List.length_append, whereOpt_params_len, ← hlen]
  rw [show (("update " : String).data).count '?' = 0 from rfl]
  rw [show ((" set " : String).data).count '?' = 0 from rfl]
  omega

theorem scanD_buildDelete {b : QueryBuilder} (htab : '$' ∉ b.table.data)
    (hws : ∀ w ∈ b.whereClauses, '$' ∉ w.column.data ∧ '$' ∉ w.operator.data ∧
      '$' ∉ w.joinType.data)
    (hord : '$' ∉ b.order.data)
    (hst : b.paramStyle = .DollarNumber) :
    scanD (b.buildDelete).SQL = List.range' 1 (b.buildDelete).Params.length := by
  have hsafet := not_mem_safeIdentifier (by decide) htab
  show scanDAux (("delete from " ++ safeIdentifier b.table
      ++ (QueryBuilder.whereOpt b 0).1 ++ QueryBuilder.tailText b false).data) .idle
    = List.range' 1 (QueryBuilder.whereOpt b 0).2.length
  simp only [String.data_append, List.append_assoc]
  rw [scanDAux_idle_append (by decide : '$' ∉ ("delete from " : String).data)]
  rw [scanDAux_idle_append hsafet]
  rw [scan_whereOpt hws hst (headOk_tailText b false)]
  rw [scanDAux_idle_clean (not_mem_tailText (Or.inl rfl) hord)]
  rw [whereOpt_params_len]
  simp

theorem countQ_buildDelete {b : QueryBuilder} (htab : '?' ∉ b.table.data)
    (hws : ∀ w ∈ b.whereClauses, '?' ∉ w.column.data ∧ '?' ∉ w.operator.data ∧
      '?' ∉ w.joinType.data)
    (hord : '?' ∉ b.order.data)
    (hst : b.paramStyle = .QuestionMark) :
    countQ (b.buildDelete).SQL = (b.buildDelete).Params.length := by
  have hsafet := not_mem_safeIdentifier (by decide) htab
  show (("delete from " ++ safeIdentifier b.table
      ++ (QueryBuilder.whereOpt b 0).1 ++ QueryBuilder.tailText b false).data).count '?'
    = (QueryBuilder.whereOpt b 0).2.length
  simp only [String.data_append, List.count_append]
  rw [count_zero_of_not_mem hsafet]
  rw [count_zero_of_not_mem (not_mem_tailText (Or.inr rfl) hord)]
  rw [countQ_whereOpt hws hst, whereOpt_params_len]
  rw [show (("delete from " : String).data).count '?' = 0 from rfl]
  omega

/-! ### Reachable builder states -/

theorem strClean_not_mem {s : String} (hs : strClean s = true) {c : Char}
    (hc : c = '$' ∨ c = '?') : c ∉ s.data := by
  intro hm
  have hcontains : s.data.contains c = true := List.elem_iff.mpr hm
  simp only [strClean, Bool.and_eq_true, Bool.not_eq_true'] at hs
  rcases hc with rfl | rfl
  · rw [hs.1] at hcontains
    exact Bool.false_ne_true hcontains
  · rw [hs.2] at hcontains
    exact Bool.false_ne_true hcontains

theorem builderClean_parts {b : QueryBuilder} (h : builderClean b = true)
    {c : Char} (hc : c = '$' ∨ c = '?') :
    c ∉ b.table.data ∧ c ∉ b.tableAlias.data ∧ (∀ s ∈ b.columns, c ∉ s.data) ∧
    (∀ w ∈ b.whereClauses, c ∉ w.column.data ∧ c ∉ w.operator.data ∧
      c ∉ w.joinType.data) ∧
    (∀ j ∈ b.joinClauses, c ∉ j.jtype.data ∧ c ∉ j.table.data ∧
      c ∉ j.alias'.data ∧ c ∉ j.condition.data) ∧
    c ∉ b.order.data ∧ (∀ s ∈ b.insertColumns, c ∉ s.data) ∧
    (∀ s ∈ b.updateColumns, c ∉ s.data) := by
  simp only [builderClean, Bool.and_eq_true, List.all_eq_true] at h
  obtain ⟨⟨⟨⟨⟨⟨⟨h1, h2⟩, h3⟩, h4⟩, h5⟩, h6⟩, h7⟩, h8⟩ := h
  refine ⟨strClean_not_mem h1 hc, strClean_not_mem h2 hc,
    fun s hs => strClean_not_mem (h3 s hs) hc, fun w hw => ?_, fun j hj => ?_,
    strClean_not_mem h6 hc, fun s hs => strClean_not_mem (h7 s hs) hc,
    fun s hs => strClean_not_mem (h8 s hs) hc⟩
  · have := h4 w hw
    simp only [wcClean, Bool.and_eq_true] at this
    exact ⟨strClean_not_mem this.1.1 hc, strClean_not_mem this.1.2 hc,
      strClean_not_mem this.2 hc⟩
  · have := h5 j hj
    simp only [jcClean, Bool.and_eq_true] at this
    exact ⟨strClean_not_mem this.1.1.1 hc, strClean_not_mem this.1.1.2 hc,
      strClean_not_mem this.1.2 hc, strClean_not_mem this.2 hc⟩

theorem applyDecl_updLen {b : QueryBuilder}
    (h : b.updateColumns.length = b.updateValues.length) (d : Decl) :
    (applyDecl b d).updateColumns.length = (applyDecl b d).updateValues.length := by
  cases d
  case joinD k t cond =>
    cases k <;> simp [applyDecl, QueryBuilder.Join, QueryBuilder.LeftJoin,
      QueryBuilder.RightJoin, QueryBuilder.InnerJoin, QueryBuilder.FullJoin, h]
  case joinAsD k t a cond =>
    cases k <;> simp [applyDecl, QueryBuilder.JoinAs, QueryBuilder.LeftJoinAs,
      QueryBuilder.RightJoinAs, QueryBuilder.InnerJoinAs, QueryBuilder.FullJoinAs, h]
  all_goals
    simp [applyDecl, QueryBuilder.Table, QueryBuilder.As, QueryBuilder.Select,
      QueryBuilder.Insert, QueryBuilder.InsertColumns, QueryBuilder.Values,
      QueryBuilder.Update, QueryBuilder.Set, QueryBuilder.Delete,
      QueryBuilder.Where, QueryBuilder.OrWhere, QueryBuilder.OrderBy,
      QueryBuilder.Limit, QueryBuilder.Offset, QueryBuilder.ParameterPlaceholder, h]

theorem builderClean_applyDecl {b : QueryBuilder} (hb : builderClean b = true)
    {d : Decl} (hd : declClean d = true) :
    builderClean (applyDecl b d) = true := by
  cases d
  case joinD k t cond =>
    cases k <;>
    · simp only [declClean, Bool.and_eq_true] at hd
      simp_all [applyDecl, QueryBuilder.Join, QueryBuilder.LeftJoin,
        QueryBuilder.RightJoin, QueryBuilder.InnerJoin, QueryBuilder.FullJoin,
        builderClean, jcClean, List.all_append, Bool.and_eq_true]
      decide
  case joinAsD k t a cond =>
    cases k <;>
    · simp only [declClean, Bool.and_eq_true] at hd
      simp_all [applyDecl, QueryBuilder.JoinAs, QueryBuilder.LeftJoinAs,
        QueryBuilder.RightJoinAs, QueryBuilder.InnerJoinAs, QueryBuilder.FullJoinAs,
        builderClean, jcClean, List.all_append, Bool.and_eq_true]
      decide
  all_goals
    simp only [declClean, Bool.and_eq_true] at hd <;>
    simp_all [applyDecl, QueryBuilder.Table, QueryBuilder.As, QueryBuilder.Select,
      QueryBuilder.Insert, QueryBuilder.InsertColumns, QueryBuilder.Values,
      QueryBuilder.Update, QueryBuilder.Set, QueryBuilder.Delete,
      QueryBuilder.Where, QueryBuilder.OrWhere, QueryBuilder.OrderBy,
      QueryBuilder.Limit, QueryBuilder.Offset, QueryBuilder.ParameterPlaceholder,
      builderClean, wcClean, jcClean, List.all_append, Bool.and_eq_true]
  all_goals try decide
  all_goals try (intro x hx; first
    | exact hd (Prod.fst x) (List.mem_map_of_mem _ hx)
    | exact hd x hx)
  all_goals try (split <;> first
    | exact hd
    | exact hb.1.1.1.1.1.2)

theorem builderClean_foldl : ∀ (ds : List Decl) (b : QueryBuilder),
    declsClean ds = true → builderClean b = true →
    b.updateColumns.length = b.updateValues.length →
    builderClean (ds.foldl applyDecl b) = true ∧
    (ds.foldl applyDecl b).updateColumns.length
      = (ds.foldl applyDecl b).updateValues.length := by
  intro ds
  induction ds with
  | nil => exact fun b _ hb hl => ⟨hb, hl⟩
  | cons d ds ih =>
    intro b h hb hl
    simp only [declsClean, List.all_cons, Bool.and_eq_true] at h
    exact ih (applyDecl b d) h.2 (builderClean_applyDecl hb h.1)
      (applyDecl_updLen hl d)

theorem builderClean_applyDecls {ds : List Decl} (h : declsClean ds = true) :
    builderClean (applyDecls ds) = true ∧
    (applyDecls ds).updateColumns.length = (applyDecls ds).updateValues.length :=
  builderClean_foldl ds NewQueryBuilder h (by decide) rfl

/-- C4: for every sequence of declaration calls on a fresh builder whose
string arguments contain neither `$` nor `?` (so that a placeholder-looking
token in the text can only come from the placeholder generator), the result
of `Build` satisfies: under DollarNumber style the `$<n>` ordinals read left
to right in the text are exactly `1, 2, ..., n` where `n` is the length of
the parameter list (so in particular their number equals it), and under
QuestionMark style the number of `?` tokens equals the length of the
parameter list — for every statement kind. -/
theorem C4_placeholder_numbering (ds : List Decl) (h : declsClean ds = true) :
    ((applyDecls ds).paramStyle = ParameterStyle.DollarNumber →
      scanD ((applyDecls ds).Build).SQL
        = List.range' 1 ((applyDecls ds).Build).Params.length) ∧
    ((applyDecls ds).paramStyle = ParameterStyle.QuestionMark →
      countQ ((applyDecls ds).Build).SQL
        = ((applyDecls ds).Build).Params.length) := by
  obtain ⟨hclean, hlen⟩ := builderClean_applyDecls h
  obtain ⟨t1, t2, t3, t4, t5, t6, t7, t8⟩ := builderClean_parts hclean (Or.inl rfl)
  obtain ⟨q1, q2, q3, q4, q5, q6, q7, q8⟩ := builderClean_parts hclean (Or.inr rfl)
  constructor
  · intro hst
    cases hq : (applyDecls ds).queryType
    · rw [show (applyDecls ds).Build = (applyDecls ds).buildSelect from by
        unfold QueryBuilder.Build; rw [hq]]
      exact scanD_buildSelect t3 t1 t2 t5 t4 t6 hst
    · rw [show (applyDecls ds).Build = (applyDecls ds).buildInsert from by
        unfold QueryBuilder.Build; rw [hq]]
      exact scanD_buildInsert t1 t7 hst
    · rw [show (applyDecls ds).Build = (applyDecls ds).buildUpdate from by
        unfold QueryBuilder.Build; rw [hq]]
      exact scanD_buildUpdate t1 t8 t4 t6 hlen hst
    · rw [show (applyDecls ds).Build = (applyDecls ds).buildDelete from by
        unfold QueryBuilder.Build; rw [hq]]
      exact scanD_buildDelete t1 t4 t6 hst
  · intro hst
    cases hq : (applyDecls ds).queryType
    · rw [show (applyDecls ds).Build = (applyDecls ds).buildSelect from by
        unfold QueryBuilder.Build; rw [hq]]
      exact countQ_buildSelect q3 q1 q2 q5 q4 q6 hst
    · rw [show (applyDecls ds).Build = (applyDecls ds).buildInsert from by
        unfold QueryBuilder.Build; rw [hq]]
      exact countQ_buildInsert q1 q7 hst
    · rw [show (applyDecls ds).Build = (applyDecls ds).buildUpdate from by
        unfold QueryBuilder.Build; rw [hq]]
      exact countQ_buildUpdate q1 q8 q4 q6 hlen hst
    · rw [show (applyDecls ds).Build = (applyDecls ds).buildDelete from by
        unfold QueryBuilder.Build; rw [hq]]
      exact countQ_buildDelete q1 q4 q6 hst

/-- Witness for C4 at a concrete declaration sequence (a two-predicate
update, exercising the shared SET/WHERE counter). -/
theorem C4_placeholder_numbering_witness :
    (((applyDecls [Decl.table "users", Decl.setCol "name" (Val.str "Jane"),
        Decl.whereAnd "id" "=" (Val.int 1)]).paramStyle
        = ParameterStyle.DollarNumber →
      scanD ((applyDecls [Decl.table "users", Decl.setCol "name" (Val.str "Jane"),
        Decl.whereAnd "id" "=" (Val.int 1)]).Build).SQL
        = List.range' 1 ((applyDecls [Decl.table "users",
            Decl.setCol "name" (Val.str "Jane"),
            Decl.whereAnd "id" "=" (Val.int 1)]).Build).Params.length) ∧
    ((applyDecls [Decl.table "users", Decl.setCol "name" (Val.str "Jane"),
        Decl.whereAnd "id" "=" (Val.int 1)]).paramStyle
        = ParameterStyle.QuestionMark →
      countQ ((applyDecls [Decl.table "users", Decl.setCol "name" (Val.str "Jane"),
        Decl.whereAnd "id" "=" (Val.int 1)]).Build).SQL
        = ((applyDecls [Decl.table "users", Decl.setCol "name" (Val.str "Jane"),
            Decl.whereAnd "id" "=" (Val.int 1)]).Build).Params.length)) :=
  C4_placeholder_numbering
    [Decl.table "users", Decl.setCol "name" (Val.str "Jane"),
      Decl.whereAnd "id" "=" (Val.int 1)] (by decide)

/-- C5: for every Update build with `M` update columns and `N` predicates
under DollarNumber style (strings free of `$` so the text's tokens are the
generator's), the SET fragment's placeholders read `1..M` in column order,
the WHERE fragment's placeholders continue at `M+1..M+N` in declaration
order (never restarting at 1), and the whole statement reads `1..M+N` with
`M+N` parameters. -/
theorem C5_update_numbering {b : QueryBuilder} (hq : b.queryType = .UpdateQuery)
    (hst : b.paramStyle = .DollarNumber)
    (ht : '$' ∉ b.table.data) (hcols : ∀ s ∈ b.updateColumns, '$' ∉ s.data)
    (hws : ∀ w ∈ b.whereClauses, '$' ∉ w.column.data ∧ '$' ∉ w.operator.data ∧
      '$' ∉ w.joinType.data)
    (hord : '$' ∉ b.order.data)
    (hlen : b.updateColumns.length = b.updateValues.length) :
    scanD (QueryBuilder.goJoin ", "
        (QueryBuilder.setPieces .DollarNumber b.updateColumns 0))
      = List.range' 1 b.updateColumns.length ∧
    scanD (QueryBuilder.whereOpt b b.updateColumns.length).1
      = List.range' (b.updateColumns.length + 1) b.whereClauses.length ∧
    scanD (b.Build).SQL
      = List.range' 1 (b.updateColumns.length + b.whereClauses.length) ∧
    (b.Build).Params.length
      = b.updateColumns.length + b.whereClauses.length := by
  have hBuild : b.Build = b.buildUpdate := by
    unfold QueryBuilder.Build
    rw [hq]
  have h1 : scanD (QueryBuilder.goJoin ", "
      (QueryBuilder.setPieces .DollarNumber b.updateColumns 0))
      = List.range' 1 b.updateColumns.length := by
    have hs := scan_setPieces (k := 0) hcols
      (show headOk ([] : List Char) = true by decide)
    rw [show scanDAux ([] : List Char) .idle = [] from rfl] at hs
    rw [List.append_nil, List.append_nil] at hs
    simpa using hs
  have h2 : scanD (QueryBuilder.whereOpt b b.updateColumns.length).1
      = List.range' (b.updateColumns.length + 1) b.whereClauses.length := by
    have hs := scan_whereOpt (b := b) (n := b.updateColumns.length) hws hst
      (show headOk ([] : List Char) = true by decide)
    rw [show scanDAux ([] : List Char) .idle = [] from rfl] at hs
    rw [List.append_nil, List.append_nil] at hs
    exact hs
  have h4 : (b.Build).Params.length
      = b.updateColumns.length + b.whereClauses.length := by
    rw [hBuild]
    show (b.updateValues
      ++ (QueryBuilder.whereOpt b b.updateColumns.length).2).length = _
    rw [List.length_append, whereOpt_params_len, ← hlen]
  have h3 : scanD (b.Build).SQL
      = List.range' 1 (b.updateColumns.length + b.whereClauses.length) := by
    rw [hBuild, scanD_buildUpdate ht hcols hws hord hlen hst, ← hBuild, h4]
  exact ⟨h1, h2, h3, h4⟩

/-- Witness for C5: `Table("users").Set("name","Jane").Where("id","=",1)` —
one SET column, one predicate; SET placeholder `$1`, WHERE continues at
`$2`. -/
theorem C5_update_numbering_witness :
    scanD (QueryBuilder.goJoin ", " (QueryBuilder.setPieces .DollarNumber
        (applyDecls [Decl.table "users", Decl.setCol "name" (Val.str "Jane"),
          Decl.whereAnd "id" "=" (Val.int 1)]).updateColumns 0))
      = List.range' 1 (applyDecls [Decl.table "users",
          Decl.setCol "name" (Val.str "Jane"),
          Decl.whereAnd "id" "=" (Val.int 1)]).updateColumns.length ∧
    scanD (QueryBuilder.whereOpt (applyDecls [Decl.table "users",
        Decl.setCol "name" (Val.str "Jane"), Decl.whereAnd "id" "=" (Val.int 1)])
        (applyDecls [Decl.table "users", Decl.setCol "name" (Val.str "Jane"),
          Decl.whereAnd "id" "=" (Val.int 1)]).updateColumns.length).1
      = List.range' ((applyDecls [Decl.table "users",
          Decl.setCol "name" (Val.str "Jane"),
          Decl.whereAnd "id" "=" (Val.int 1)]).updateColumns.length + 1)
        (applyDecls [Decl.table "users", Decl.setCol "name" (Val.str "Jane"),
          Decl.whereAnd "id" "=" (Val.int 1)]).whereClauses.length ∧
    scanD ((applyDecls [Decl.table "users", Decl.setCol "name" (Val.str "Jane"),
        Decl.whereAnd "id" "=" (Val.int 1)]).Build).SQL
      = List.range' 1 ((applyDecls [Decl.table "users",
          Decl.setCol "name" (Val.str "Jane"),
          Decl.whereAnd "id" "=" (Val.int 1)]).updateColumns.length
        + (applyDecls [Decl.table "users", Decl.setCol "name" (Val.str "Jane"),
          Decl.whereAnd "id" "=" (Val.int 1)]).whereClauses.length) ∧
    ((applyDecls [Decl.table "users", Decl.setCol "name" (Val.str "Jane"),
        Decl.whereAnd "id" "=" (Val.int 1)]).Build).Params.length
      = (applyDecls [Decl.table "users", Decl.setCol "name" (Val.str "Jane"),
          Decl.whereAnd "id" "=" (Val.int 1)]).updateColumns.length
        + (applyDecls [Decl.table "users", Decl.setCol "name" (Val.str "Jane"),
          Decl.whereAnd "id" "=" (Val.int 1)]).whereClauses.length :=
  C5_update_numbering (by decide) (by decide) (by decide) (by decide)
    (by decide) (by decide) (by decide)

/-! ### The identifier-safety claims -/

/-- C1, counterexample to the claim as stated: the identifier `drdropop`
contains the denylisted keyword `drop`, yet the statement text `Build`
returns for a query on that table still contains `drop` — the single
removal pass deletes the inner `drop` and splices a new one together from
the remaining characters, rendering the table position as `"drop"`. -/
theorem C1_denylist_counterexample :
    ("drop" : String).data <:+: (lowerStr "drdropop").data ∧
    (applyDecls [Decl.table "drdropop"]).Build.SQL = "select * from \"drop\"" ∧
    ("drop" : String).data <:+: (applyDecls [Decl.table "drdropop"]).Build.SQL.data ∧
    safeIdentifier "drdropop" = "\"drop\"" :=
  ⟨by decide, by decide, by decide, by decide⟩

/-- C1 (amended): for every identifier containing a denylisted keyword as a
substring in any (ASCII) case combination, IF the single left-to-right
removal pass leaves no keyword occurrence, then the text rendered for that
identifier position (`safeIdentifier`, which `Build` embeds at table,
column, alias and order-by positions) contains neither any keyword in any
case variant nor the original identifier text. -/
theorem C1_denylist_sanitization {s : String} {k : String} (hk : k ∈ sqlKeywords)
    (hid : k.data <:+: (lowerStr s).data)
    (hres : ∀ k' ∈ sqlKeywords, ¬ k'.data <:+: (lowerStr (escapeIdentifier s)).data) :
    (∀ k' ∈ sqlKeywords, ¬ k'.data <:+: (lowerStr (safeIdentifier s)).data) ∧
    ¬ s.data <:+: (safeIdentifier s).data := by
  have hvalid : isValidIdentifier s = false := by
    unfold isValidIdentifier
    split
    · rfl
    · by_contra hall
      rw [Bool.not_eq_false, List.all_eq_true] at hall
      have hkp : k ∈ dangerousPatterns := by fin_cases hk <;> decide
      have hfalse := hall k hkp
      rw [Bool.not_eq_true'] at hfalse
      unfold goContains at hfalse
      rw [decide_eq_false_iff_not] at hfalse
      exact hfalse hid
  have hQuoted := safeIdentifier_eq_of_unsafe hvalid
  have hdata : (lowerStr (safeIdentifier s)).data
      = '"' :: (dblQ (List.map lowerChar (escapeIdentifier s).data) ++ ['"']) := by
    rw [hQuoted]
    show List.map lowerChar ((['"'] ++ dblQ (escapeIdentifier s).data) ++ ['"']) = _
    rw [List.map_append, List.map_append, dblQ_map_lower]
    rw [show List.map lowerChar ['"'] = ['"'] from by decide]
    simp
  have hpart1 : ∀ k' ∈ sqlKeywords,
      ¬ k'.data <:+: (lowerStr (safeIdentifier s)).data := by
    intro k' hk' hcontra
    have hkq : '"' ∉ k'.data := by fin_cases hk' <;> decide
    rw [hdata] at hcontra
    have h1 := infix_drop_cons hkq hcontra
    have h2 := infix_drop_concat hkq h1
    exact hres k' hk' (dblQ_infix_elim hkq h2)
  refine ⟨hpart1, fun hcontra => ?_⟩
  have hmap : (lowerStr s).data <:+: (lowerStr (safeIdentifier s)).data :=
    List.IsInfix.map lowerChar hcontra
  exact hpart1 k hk (hid.trans hmap)

/-- Witness for C1 at `xdropx`: the pass leaves `xx`, and the rendered
fragment `"xx"` contains neither a keyword nor `xdropx`. -/
theorem C1_denylist_sanitization_witness :
    (∀ k' ∈ sqlKeywords, ¬ k'.data <:+: (lowerStr (safeIdentifier "xdropx")).data) ∧
    ¬ ("xdropx" : String).data <:+: (safeIdentifier "xdropx").data :=
  C1_denylist_sanitization (k := "drop") (by decide) (by decide) (by decide)

/-- C2, counterexample to the claim as stated: `a; b--` is classifier-unsafe,
but `safeIdentifier` does NOT route it through the strict policy
(`escapeSimpleIdentifier`, which would keep only `[a-zA-Z0-9_.*]` and yield
`"ab"`): it only strips keywords, yielding `"a; b--"` with the semicolon and
comment dashes intact. -/
theorem C2_strict_policy_counterexample :
    isValidIdentifier "a; b--" = false ∧
    safeIdentifier "a; b--" ≠ strictQuoteSpec "a; b--" ∧
    safeIdentifier "a; b--" = "\"a; b--\"" ∧
    strictQuoteSpec "a; b--" = "\"ab\"" :=
  ⟨by decide, by decide, by decide, by decide⟩

/-- C2 (amended): a classifier-unsafe identifier is routed through the
PERMISSIVE keyword stripper `escapeIdentifier` (not the strict character
filter), then has its internal double quotes doubled and is wrapped in
double quotes. -/
theorem C2_unsafe_routing {s : String} (h : isValidIdentifier s = false) :
    safeIdentifier s
      = "\"" ++ (⟨dblQ (escapeIdentifier s).data⟩ : String) ++ "\"" :=
  safeIdentifier_eq_of_unsafe h

/-- Witness for C2 at `a; b--`. -/
theorem C2_unsafe_routing_witness :
    isValidIdentifier "a; b--" = false ∧
    safeIdentifier "a; b--"
      = "\"" ++ (⟨dblQ (escapeIdentifier "a; b--").data⟩ : String) ++ "\"" :=
  ⟨by decide, C2_unsafe_routing (by decide)⟩

/-- C3, counterexample to the claim as stated: `o'brien` is deemed safe by
the classifier (`isValidIdentifier`), yet `safeIdentifier` does not embed it
unmodified — the extra quote-character test of the passthrough branch fails,
so it is quoted. -/
theorem C3_passthrough_counterexample :
    isValidIdentifier "o'brien" = true ∧
    safeIdentifier "o'brien" ≠ "o'brien" ∧
    safeIdentifier "o'brien" = "\"o'brien\"" :=
  ⟨by decide, by decide, by decide⟩

/-- C3 (amended): a classifier-safe identifier that moreover contains no
double-quote and no single-quote character is embedded completely
unmodified, byte for byte. -/
theorem C3_safe_passthrough {s : String} (h1 : isValidIdentifier s = true)
    (h2 : s.data.contains '"' = false) (h3 : s.data.contains '\'' = false) :
    safeIdentifier s = s :=
  safeIdentifier_eq_of_safe h1 h2 h3

/-- Witness for C3 at `users`. -/
theorem C3_safe_passthrough_witness :
    isValidIdentifier "users" = true ∧ safeIdentifier "users" = "users" :=
  ⟨by decide, C3_safe_passthrough (by decide) (by decide) (by decide)⟩

/-! ### The scenario claims -/

set_option maxRecDepth 8192 in
/-- C6: `Table("users").LeftJoin("accounts; DROP TABLE logs; --",
"accounts.id = users.account_id")` renders to text that does not contain
`drop table` in any (ASCII) case variant — shown by exhibiting the exact
rendered text and checking its lower-casing. -/
theorem C6_leftjoin_drop_table :
    ((NewQueryBuilder.Table "users").LeftJoin "accounts; DROP TABLE logs; --"
        "accounts.id = users.account_id").Build.SQL
      = "select * from users LEFT JOIN \"accounts;  TABLE logs; --\" on accounts.id = users.account_id" ∧
    goContains (lowerStr (((NewQueryBuilder.Table "users").LeftJoin
        "accounts; DROP TABLE logs; --"
        "accounts.id = users.account_id").Build.SQL)) "drop table" = false :=
  ⟨by decide, by decide⟩

set_option maxRecDepth 8192 in
/-- C7 (Scenario A): `Table("users").Select("id","name","email")
.Where("age",">",18)` with the default placeholder style renders exactly
`select id, name, email from users where age > $1` with parameters `[18]`. -/
theorem C7_scenario_a :
    (((NewQueryBuilder.Table "users").Select ["id", "name", "email"]).Where
        "age" ">" (Val.int 18)).Build
      = { SQL := "select id, name, email from users where age > $1"
          Params := [Val.int 18] } := by
  decide

theorem join_foldl_append (x y : String) (l : List String) :
    l.foldl (fun r s => r ++ s) (x ++ y) = x ++ l.foldl (fun r s => r ++ s) y := by
  induction l generalizing y with
  | nil => rfl
  | cons a t ih =>
    show List.foldl _ ((x ++ y) ++ a) t = _
    rw [String.append_assoc, ih]
    rfl

theorem join_cons (a : String) (l : List String) :
    String.join (a :: l) = a ++ String.join l := by
  show List.foldl _ ("" ++ a) l = _
  rw [String.empty_append,
    show l.foldl (fun r s => r ++ s) a = l.foldl (fun r s => r ++ s) (a ++ "") from by
      rw [String.append_empty],
    join_foldl_append]
  rfl

/-- C8, counterexample to the claim as stated: the select renderer emits the
`as` and `on` join keywords in LOWER case, so the claimed fragment
`" LEFT JOIN u AS v ON c"` (with upper-case `AS`/`ON`) never appears. -/
theorem C8_join_keywords_counterexample :
    ((NewQueryBuilder.Table "t").LeftJoinAs "u" "v" "c").Build.SQL
      = "select * from t LEFT JOIN u as v on c" ∧
    goContains (((NewQueryBuilder.Table "t").LeftJoinAs "u" "v" "c").Build.SQL)
      " AS " = false ∧
    goContains (((NewQueryBuilder.Table "t").LeftJoinAs "u" "v" "c").Build.SQL)
      " ON " = false ∧
    goContains (((NewQueryBuilder.Table "t").LeftJoinAs "u" "v" "c").Build.SQL)
      " LEFT JOIN u AS v ON c" = false :=
  ⟨by decide, by decide, by decide, by decide⟩

/-- C8 (amended): the select renderer emits, for each JoinSpec in declaration
order, the fragment `" <KIND> <table>[ as <alias>] on <condition>"` — the
join kind upper-case but the `as`/`on` keywords lower-case — with the join
table and alias passed through `safeIdentifier`, the condition through the
permissive `escapeIdentifier`, and with the joins contributing no
parameters. -/
theorem C8_join_composer (b : QueryBuilder) :
    (b.buildSelect).SQL = QueryBuilder.selectBase b ++ (QueryBuilder.whereOpt b 0).1
        ++ QueryBuilder.tailText b true ∧
    QueryBuilder.joinsText b.joinClauses
      = String.join (b.joinClauses.map joinFragment) ∧
    (b.buildSelect).Params
      = (QueryBuilder.buildSelect { b with joinClauses := [] }).Params := by
  refine ⟨rfl, ?_, rfl⟩
  induction b.joinClauses with
  | nil => rfl
  | cons j js ih =>
    rw [List.map_cons, join_cons, ← ih]
    apply String.ext
    simp [QueryBuilder.joinsText, joinFragment, String.data_append]

/-- C9: declaration calls and `Build` are total functions with no error
outcome; in particular an Insert build with an empty insert-column list
emits only `insert into <table>` — no VALUES clause and an empty parameter
list — even when insert values were declared. -/
theorem C9_insert_without_columns (t : String) (vs : List Val) :
    (applyDecls [Decl.table t, Decl.insertCols [], Decl.values vs]).Build
      = { SQL := "insert into " ++ safeIdentifier t, Params := [] } := rfl

/-- C10: `Values` never changes the statement kind: on a fresh builder,
`Table(t)` followed only by `Values(...)` still renders the default Select
(same result as without the `Values` call), with an empty parameter list and
the declared values absent — concretely `select * from t`. -/
theorem C10_values_keeps_select :
    (∀ (b : QueryBuilder) (vs : List Val), (b.Values vs).queryType = b.queryType) ∧
    (∀ (t : String) (vs : List Val),
      ((NewQueryBuilder.Table t).Values vs).Build = (NewQueryBuilder.Table t).Build ∧
      ((NewQueryBuilder.Table t).Values vs).Build.Params = []) ∧
    ((NewQueryBuilder.Table "t").Values [Val.int 1, Val.str "x"]).Build
      = { SQL := "select * from t", Params := [] } := by
  refine ⟨fun b vs => rfl, fun t vs => ⟨rfl, rfl⟩, by decide⟩

end SpecQuery
